import Mathlib

/-!
Shallow embedding of the onboarding orchestrator of
`src/apps/setup-desktop/src-tauri/src/main.rs` (the canonical, richer
orchestrator variant), together with proofs about the claims of the
specification.  Rust strings are modelled as Lean `String`s; all character
operations are modelled on the ASCII fragment, matching the `is_ascii_*`
and `to_ascii_*` functions the source uses.  Filesystem, process, HTTP and
clock effects are modelled by an explicit oracle (`Env`) and the run is a
pure function returning its result together with the ordered list of
side-effect `Action`s it performed.
-/

namespace ERP

/-! ### String utilities (models of the Rust `str` methods used by the source) -/

/-- Whitespace test used by the model of Rust `str::trim` (ASCII fragment). -/
def wsp (c : Char) : Bool := c.isWhitespace

/-- Trim of a character list on both ends (model of Rust `str::trim`). -/
def trimL (l : List Char) : List Char :=
  ((l.dropWhile wsp).reverse.dropWhile wsp).reverse

/-- Model of Rust `str::trim`. -/
def trimS (s : String) : String := String.mk (trimL s.data)

/-- Model of Rust `str::trim_end_matches('/')`. -/
def trimEndSlashes (s : String) : String :=
  String.mk ((s.data.reverse.dropWhile (fun c => c = '/')).reverse)

/-- Model of Rust `str::to_lowercase` on the ASCII fragment. -/
def lowerS (s : String) : String := String.mk (s.data.map Char.toLower)

/-- Does `needle` occur at the head of `hay`? -/
def startsWithL : List Char → List Char → Bool
  | [], _ => true
  | _ :: _, [] => false
  | n :: ns, h :: hs => (n = h) && startsWithL ns hs

/-- Does `needle` occur anywhere inside `hay`? -/
def containsL (needle : List Char) : List Char → Bool
  | [] => startsWithL needle []
  | h :: hs => startsWithL needle (h :: hs) || containsL needle hs

/-- Model of Rust `str::contains` for a literal needle. -/
def sContains (hay needle : String) : Bool := containsL needle.data hay.data

/-- Decimal digit character for `n < 10`. -/
def digitChar : Nat → Char
  | 0 => '0' | 1 => '1' | 2 => '2' | 3 => '3' | 4 => '4'
  | 5 => '5' | 6 => '6' | 7 => '7' | 8 => '8' | 9 => '9'
  | _ => '*'

/-- Numeric value of a decimal digit character. -/
def digitVal (c : Char) : Nat := c.toNat - 48

/-- Decimal digits of `n`, least significant first; `fuel ≥ n` suffices. -/
def digitsRev : Nat → Nat → List Char
  | 0, _ => []
  | fuel + 1, n => if n = 0 then [] else digitChar (n % 10) :: digitsRev fuel (n / 10)

/-- Model of Rust `Display` for unsigned integers. -/
def natStr (n : Nat) : String := if n = 0 then "0" else String.mk (digitsRev n n).reverse

/-- Model of the Rust format specifier `{:02}`: zero-pad to width two. -/
def pad2 (n : Nat) : String := if n < 10 then "0" ++ natStr n else natStr n

/-- Model of Rust `Display` for `i32` exit codes. -/
def intStr (i : Int) : String := if i < 0 then "-" ++ natStr i.natAbs else natStr i.natAbs

/-- Model of Rust `str::parse::<u16>()` (optional leading plus sign, digits only,
bounded by 65535). -/
def parseNatDigits : List Char → Nat → Option Nat
  | [], acc => some acc
  | c :: cs, acc => if c.isDigit then parseNatDigits cs (acc * 10 + digitVal c) else none

/-- Model of Rust `str::parse::<u16>().ok()`. -/
def parseU16 (s : String) : Option Nat :=
  let ds := match s.data with
    | '+' :: rest => rest
    | other => other
  if ds.isEmpty then none
  else match parseNatDigits ds 0 with
    | none => none
    | some n => if n ≤ 65535 then some n else none

/-! ### The persisted config map (`read_env_file` / `write_env_file`) -/

/-- The flat key/value map the orchestrator persists
(`std::collections::HashMap<String, String>` in the source). -/
def EnvMap := String → Option String

/-- The empty map. -/
def emptyEnv : EnvMap := fun _ => none

/-- Insertion, later insertions win (model of `HashMap::insert`). -/
def envInsert (m : EnvMap) (k v : String) : EnvMap :=
  fun q => if q = k then some v else m q

instance : Inhabited EnvMap := ⟨emptyEnv⟩

/-- Lookup with a default (model of `values.get(k).cloned().unwrap_or_else(...)`). -/
def envGetD (m : EnvMap) (k dflt : String) : String := (m k).getD dflt

/-- Split a line at the first `'='` (model of `str::split_once('=')`). -/
def splitAtEq : List Char → Option (List Char × List Char)
  | [] => none
  | c :: cs =>
    if c = '=' then some ([], cs)
    else match splitAtEq cs with
      | some (k, v) => some (c :: k, v)
      | none => none

/-- The key/value pair one line of the config file contributes, if any
(main.rs 181-191): lines that are blank after trimming or start with `'#'`
contribute nothing, lines without `'='` contribute nothing, otherwise the
key and value are the trimmed halves around the first `'='` (an empty key
contributes nothing). -/
def lineKV (line : String) : Option (String × String) :=
  let s := trimL line.data
  if s.isEmpty || s.head? = some '#' then none
  else match splitAtEq s with
    | none => none
    | some (k, v) =>
      let key := String.mk (trimL k)
      let val := String.mk (trimL v)
      if key.data.isEmpty then none else some (key, val)

/-- One iteration of the parsing loop of `read_env_file` (main.rs 181-192):
insert the line's key/value pair when it has one. -/
def envLineStep (m : EnvMap) (line : String) : EnvMap :=
  match lineKV line with
  | none => m
  | some kv => envInsert m kv.1 kv.2

/-- Embeds the loop of `read_env_file` over the lines of the file. -/
def readEnvLines (ls : List String) : EnvMap := ls.foldl envLineStep emptyEnv

/-- Embeds `read_env_file` (main.rs 175-194).  The file content is modelled as
its list of lines (`lines.join("\n")` / `str::lines` round-trip); `none`
models a missing or unreadable file, for which the source returns the empty
map. -/
def readEnvFile (content : Option (List String)) : EnvMap :=
  match content with
  | none => emptyEnv
  | some ls => readEnvLines ls

/-- Embeds the lines vector built by `write_env_file` (main.rs 196-265),
in source order, including the defaults applied for absent keys. -/
def writeEnvLines (values : EnvMap) : List String :=
  [ "# Auto-generated by Setup Desktop",
    "# Do not commit this file (contains secrets).",
    "",
    "# Edge service ports",
    "API_PORT=" ++ envGetD values "API_PORT" "8001",
    "ADMIN_PORT=" ++ envGetD values "ADMIN_PORT" "3000",
    "",
    "# Postgres",
    "POSTGRES_DB=" ++ envGetD values "POSTGRES_DB" "ahtrading",
    "POSTGRES_USER=" ++ envGetD values "POSTGRES_USER" "ahtrading",
    "POSTGRES_PASSWORD=" ++ envGetD values "POSTGRES_PASSWORD" "",
    "",
    "# App DB role",
    "APP_DB_USER=" ++ envGetD values "APP_DB_USER" "ahapp",
    "APP_DB_PASSWORD=" ++ envGetD values "APP_DB_PASSWORD" "",
    "",
    "# Bootstrap admin (script toggles this off after provisioning)",
    "BOOTSTRAP_ADMIN=" ++ envGetD values "BOOTSTRAP_ADMIN" "0",
    "BOOTSTRAP_ADMIN_EMAIL=" ++ envGetD values "BOOTSTRAP_ADMIN_EMAIL" "admin@ahtrading.local",
    "BOOTSTRAP_ADMIN_PASSWORD=" ++ envGetD values "BOOTSTRAP_ADMIN_PASSWORD" "",
    "BOOTSTRAP_ADMIN_RESET_PASSWORD=" ++ envGetD values "BOOTSTRAP_ADMIN_RESET_PASSWORD" "0",
    "",
    "# MinIO / attachments",
    "MINIO_ROOT_USER=" ++ envGetD values "MINIO_ROOT_USER" "minioadmin",
    "MINIO_ROOT_PASSWORD=" ++ envGetD values "MINIO_ROOT_PASSWORD" "",
    "S3_BUCKET=" ++ envGetD values "S3_BUCKET" "attachments",
    "",
    "# Edge -> cloud sync (optional)",
    "EDGE_SYNC_TARGET_URL=" ++ envGetD values "EDGE_SYNC_TARGET_URL" "",
    "EDGE_SYNC_KEY=" ++ envGetD values "EDGE_SYNC_KEY" "",
    "EDGE_SYNC_NODE_ID=" ++ envGetD values "EDGE_SYNC_NODE_ID" "",
    "" ]

/-! ### Random secrets (`rand_secret`) -/

/-- The 62-symbol alphabet of the `rand` crate's `Alphanumeric` distribution. -/
def alphaTable : List Char :=
  "ABCDEFGHIJKLMNOPQRSTUVWXYZabcdefghijklmnopqrstuvwxyz0123456789".data

/-- Symbol selected by one uniform draw of `Alphanumeric`. -/
def alphaChar (k : Fin 62) : Char := alphaTable.getD k.val 'A'

/-- Embeds `rand_secret` (main.rs 274-281): `len` independent draws from
`Alphanumeric`.  The ambient thread-local entropy is modelled as a stream
`rng` of uniform draws, consumed from offset `off`. -/
def randSecret (rng : Nat → Fin 62) (off len : Nat) : String :=
  String.mk ((List.range len).map fun i => alphaChar (rng (off + i)))

/-! ### Device codes and slugs -/

/-- One step of the cleaning loop of `device_code_prefix` (main.rs 307-313):
ASCII alphanumerics are pushed uppercased, anything else becomes a hyphen
unless a hyphen was just pushed.  The accumulator is kept reversed. -/
def cleanRev (acc : List Char) (ch : Char) : List Char :=
  if ch.isAlphanum then ch.toUpper :: acc
  else match acc with
    | '-' :: _ => acc
    | _ => '-' :: acc

/-- Model of `str::trim_matches('-')`. -/
def trimDash (l : List Char) : List Char :=
  ((l.dropWhile (fun c => c = '-')).reverse.dropWhile (fun c => c = '-')).reverse

/-- Embeds `device_code_prefix` (main.rs 305-319). -/
def deviceCodePfx (company_name : String) : String :=
  let cleaned := trimDash (company_name.data.foldl cleanRev []).reverse
  if cleaned.isEmpty then "POS" else String.mk (cleaned.take 14)

/-- Embeds the device-code format string of main.rs 720. -/
def deviceCode (pfx : String) (i : Nat) : String := pfx ++ "-POS-" ++ pad2 i

/-- The accumulator loop of `slug` (main.rs 283-294); the accumulator is kept
reversed, `lastDash` mirrors the `last_dash` flag. -/
def slugRev : List Char → Bool → List Char → List Char
  | acc, _, [] => acc
  | acc, lastDash, ch :: rest =>
    if ch.isAlphanum then slugRev (ch :: acc) false rest
    else if !lastDash && !acc.isEmpty then slugRev ('-' :: acc) true rest
    else slugRev acc lastDash rest

/-- Embeds `slug` (main.rs 283-303). -/
def slug (raw : String) : String :=
  let rev := slugRev [] false ((trimS raw).data.map Char.toLower)
  let out := (rev.dropWhile (fun c => c = '-')).reverse
  if out.isEmpty then "company" else String.mk out

/-! ### The run request and runner state -/

/-- Embeds `OnboardParams` (main.rs 30-59); `u16` ports are modelled as `Nat`. -/
structure OnboardParams where
  repo_path : String
  mode : String
  edge_home : Option String
  api_port : Option Nat
  admin_port : Option Nat
  api_base_url : Option String
  edge_api_url_for_pos : String
  admin_email : Option String
  admin_password : Option String
  device_count : Option Nat
  companies : Option (List String)
  enable_sync : Option Bool
  cloud_api_url : Option String
  edge_sync_key : Option String
  edge_node_id : Option String
  update_env : Option Bool

/-- Embeds `RunnerState` (main.rs 15-20); the child process handle is an
abstract identifier. -/
structure RunnerState where
  child : Option Nat
  stop_requested : Bool
  running : Bool
  deriving DecidableEq, Repr

/-! ### Side effects of a run, as an explicit trace -/

/-- One externally visible effect of a run: emitted events, the config write,
process spawns, HTTP calls and artifact writes.  HTTP calls are recorded with
the request data the claims talk about. -/
inductive Action where
  | log (line : String)
  | ensureBundle
  | writeEnv (lines : List String)
  | spawn (label : String)
  | healthGet (url : String)
  | loginCall (email : String) (password : String)
  | listCompanies
  | listBranches (companyId : String)
  | registerDevice (companyId : String) (deviceCode : String) (branchId : Option String)
  | fsWrite (path : String)
  | doneEv (code : Int)
  deriving DecidableEq, Repr

/-- Is the action one of the provisioning HTTP calls (login, company/branch
listing, device registration)? -/
def Action.isProvisioning : Action → Bool
  | .loginCall _ _ => true
  | .listCompanies => true
  | .listBranches _ => true
  | .registerDevice _ _ _ => true
  | _ => false

/-- Is the action a process spawn? -/
def Action.isSpawn : Action → Bool
  | .spawn _ => true
  | _ => false

/-- Is the action a health poll? -/
def Action.isHealthGet : Action → Bool
  | .healthGet _ => true
  | _ => false

/-- Is the action a config-file write? -/
def Action.isWriteEnv : Action → Bool
  | .writeEnv _ => true
  | _ => false

/-- Is the action any HTTP call? -/
def Action.isHttp : Action → Bool
  | .healthGet _ => true
  | .loginCall _ _ => true
  | .listCompanies => true
  | .listBranches _ => true
  | .registerDevice _ _ _ => true
  | _ => false

/-! ### The external world, as an oracle -/

/-- Result of one `docker compose` invocation as observed by
`run_cmd_stream`: the drained stdout/stderr lines and the exit code. -/
structure ComposeRun where
  outLines : List String
  errLines : List String
  exitCode : Int

/-- One observation of the health endpoint: either a transport error, or a
response whose `status` field read as a string (`as_str().unwrap_or("")`) is
`status`, displayed in the log as `shown`. -/
inductive HealthObs where
  | connErr (e : String)
  | resp (status : String) (shown : String)

/-- The JSON fields of the login response the source reads. -/
structure LoginResp where
  mfaRaw : Option Bool
  tokenRaw : Option String

/-- The JSON fields of one element of the `companies` array the source reads. -/
structure Company where
  idRaw : Option String
  nameRaw : Option String

/-- The JSON fields of one element of the `branches` array the source reads. -/
structure Branch where
  idRaw : Option String
  nameRaw : Option String

/-- The JSON fields of the device-registration response the source reads. -/
structure RegResp where
  idRaw : Option String
  tokenRaw : Option String

/-- The oracle for every external interaction of one run.  `stop` is the
`stop_requested` flag as read at the n-th cooperative checkpoint; `rng` is
the thread-local entropy stream; `writeRes`/`fsRes` give `none` on success
and the IO error string on failure, indexed by occurrence. -/
structure Env where
  stop : Nat → Bool
  rng : Nat → Fin 62
  repoLayout : Bool
  bundleRes : Except String Unit
  fileLines : Option (List String)
  envExists : Bool
  defaultEdgeHome : String
  hostname : String
  writeRes : Nat → Option String
  composeFileExists : Bool
  composeRun : Nat → ComposeRun
  health : Nat → HealthObs
  loginRes : Except String LoginResp
  companiesRes : Except String (List Company)
  branchesRes : String → Except String (List Branch)
  registerRes : String → String → Except String RegResp
  fsRes : Nat → Option String
  timestamp : String

/-- A device record produced during provisioning (main.rs 635-644). -/
structure DeviceRec where
  company_id : String
  company_name : String
  branch_id : Option String
  branch_name : Option String
  device_code : String
  device_id : String
  device_token : String
  deriving DecidableEq, Repr

/-! ### Resolved run configuration (the pure part of `run_onboarding_internal`) -/

/-- The values `run_onboarding_internal` computes before its first config
write (main.rs 485-597), gathered in one record. -/
structure Ctx where
  useRepo : Bool
  composeImages : Bool
  edgeHomePath : String
  envPath : String
  onboardingRoot : String
  composePath : String
  existingEnv : EnvMap
  shouldWrite : Bool
  apiPort : Nat
  adminPort : Nat
  edgeUrl : String
  syncEnabled : Bool
  cloudUrl : String
  syncKey : String
  adminEmail : String
  adminPassword : String
  generatedPwd : Bool
  nodeId : String
  pgPassword : String
  appPassword : String
  minioPassword : String
  envValues : EnvMap
  mode : String
  skipDevices : Bool
  skipStart : Bool
  deriving Inhabited

/-- Embeds the straight-line configuration part of `run_onboarding_internal`
(main.rs 485-597 plus the compose-file choice of 599-603): path resolution,
config read, secret resolution, the `env_values` map, and the two request
validation errors, in source order.  Path joins use `/` uniformly. -/
def resolveCtx (env : Env) (p : OnboardParams) : Except String Ctx :=
  let repo := trimS p.repo_path
  let useRepo := !(trimS p.repo_path).data.isEmpty && env.repoLayout
  let edgeHomeReq := trimS (p.edge_home.getD "")
  let edgeHome := if edgeHomeReq.data.isEmpty then
      (if useRepo then repo ++ "/deploy/edge" else env.defaultEdgeHome) else edgeHomeReq
  let edgeHomePath := trimS edgeHome
  let composeImages := !useRepo
  let envPath := edgeHomePath ++ "/.env.edge"
  let onboardingRoot := edgeHomePath ++ "/onboarding"
  let existingEnv := readEnvFile env.fileLines
  let shouldWrite := !env.envExists || p.update_env.getD false
  let apiPort := ((p.api_port).orElse (fun _ => (existingEnv "API_PORT").bind parseU16)).getD 8001
  let adminPort := ((p.admin_port).orElse (fun _ => (existingEnv "ADMIN_PORT").bind parseU16)).getD 3000
  let edgeUrl := trimEndSlashes (trimS p.edge_api_url_for_pos)
  if edgeUrl.data.isEmpty then .error "edge_api_url_for_pos is required."
  else
  let syncEnabled := p.enable_sync.getD false
  let cloudUrl := trimEndSlashes (trimS (p.cloud_api_url.getD ""))
  let syncKey := p.edge_sync_key.getD ""
  if syncEnabled && (trimS syncKey).data.isEmpty then .error "Sync enabled but edge_sync_key is empty."
  else
  let adminEmail := ((p.admin_email.filter (fun s => !(trimS s).data.isEmpty)).orElse
      (fun _ => existingEnv "BOOTSTRAP_ADMIN_EMAIL")).getD "admin@ahtrading.local"
  let adminPwd0 := ((p.admin_password.filter (fun s => !(trimS s).data.isEmpty)).orElse
      (fun _ => existingEnv "BOOTSTRAP_ADMIN_PASSWORD")).getD ""
  let generated := (trimS adminPwd0).data.isEmpty
  let adminPassword := if generated then randSecret env.rng 0 20 else adminPwd0
  let r1 := if generated then 20 else 0
  let nodeId := ((p.edge_node_id.filter (fun s => !(trimS s).data.isEmpty)).orElse
      (fun _ => existingEnv "EDGE_SYNC_NODE_ID")).getD env.hostname
  let pgE := (existingEnv "POSTGRES_PASSWORD").filter (fun s => !(trimS s).data.isEmpty)
  let pgPassword := pgE.getD (randSecret env.rng r1 24)
  let r2 := if pgE.isNone then r1 + 24 else r1
  let appE := (existingEnv "APP_DB_PASSWORD").filter (fun s => !(trimS s).data.isEmpty)
  let appPassword := appE.getD (randSecret env.rng r2 24)
  let r3 := if appE.isNone then r2 + 24 else r2
  let minioE := (existingEnv "MINIO_ROOT_PASSWORD").filter (fun s => !(trimS s).data.isEmpty)
  let minioPassword := minioE.getD (randSecret env.rng r3 24)
  let envValues :=
    envInsert (envInsert (envInsert (envInsert (envInsert (envInsert (envInsert (envInsert
    (envInsert (envInsert (envInsert (envInsert (envInsert (envInsert (envInsert (envInsert
    (envInsert emptyEnv
      "API_PORT" (natStr apiPort))
      "ADMIN_PORT" (natStr adminPort))
      "POSTGRES_DB" (envGetD existingEnv "POSTGRES_DB" "ahtrading"))
      "POSTGRES_USER" (envGetD existingEnv "POSTGRES_USER" "ahtrading"))
      "POSTGRES_PASSWORD" pgPassword)
      "APP_DB_USER" (envGetD existingEnv "APP_DB_USER" "ahapp"))
      "APP_DB_PASSWORD" appPassword)
      "BOOTSTRAP_ADMIN" (if shouldWrite then "1" else envGetD existingEnv "BOOTSTRAP_ADMIN" "0"))
      "BOOTSTRAP_ADMIN_EMAIL" adminEmail)
      "BOOTSTRAP_ADMIN_PASSWORD" adminPassword)
      "BOOTSTRAP_ADMIN_RESET_PASSWORD"
        (if shouldWrite then "1" else envGetD existingEnv "BOOTSTRAP_ADMIN_RESET_PASSWORD" "0"))
      "MINIO_ROOT_USER" (envGetD existingEnv "MINIO_ROOT_USER" "minioadmin"))
      "MINIO_ROOT_PASSWORD" minioPassword)
      "S3_BUCKET" (envGetD existingEnv "S3_BUCKET" "attachments"))
      "EDGE_SYNC_TARGET_URL" (if syncEnabled then cloudUrl else ""))
      "EDGE_SYNC_KEY" (if syncEnabled then syncKey else ""))
      "EDGE_SYNC_NODE_ID" nodeId
  let mode := lowerS (trimS p.mode)
  .ok {
    useRepo := useRepo
    composeImages := composeImages
    edgeHomePath := edgeHomePath
    envPath := envPath
    onboardingRoot := onboardingRoot
    composePath := if composeImages then edgeHomePath ++ "/docker-compose.edge.images.yml"
      else repo ++ "/deploy/docker-compose.edge.yml"
    existingEnv := existingEnv
    shouldWrite := shouldWrite
    apiPort := apiPort
    adminPort := adminPort
    edgeUrl := edgeUrl
    syncEnabled := syncEnabled
    cloudUrl := cloudUrl
    syncKey := syncKey
    adminEmail := adminEmail
    adminPassword := adminPassword
    generatedPwd := generated
    nodeId := nodeId
    pgPassword := pgPassword
    appPassword := appPassword
    minioPassword := minioPassword
    envValues := envValues
    mode := mode
    skipDevices := mode = "onprem"
    skipStart := mode = "pos" }

/-! ### The phases of a run -/

/-- Embeds the bundled-assets step (main.rs 499-503): in bundled mode
`ensure_edge_bundle` copies the runner and compose file into `edge_home`;
any IO failure aborts the run. -/
def bundlePhase (env : Env) (p : OnboardParams) : Except String Unit × List Action :=
  let useRepo := !(trimS p.repo_path).data.isEmpty && env.repoLayout
  if !useRepo then
    match env.bundleRes with
    | .error e => (.error e, [Action.ensureBundle])
    | .ok _ => (.ok (), [Action.ensureBundle])
  else (.ok (), [])

/-- Embeds the first config write (main.rs 586-591): write the file when it
is absent or an update was requested, otherwise log that it is reused. -/
def writePhase (env : Env) (ctx : Ctx) : Except String Unit × List Action :=
  if ctx.shouldWrite then
    match env.writeRes 0 with
    | some e => (.error e, [Action.writeEnv (writeEnvLines ctx.envValues)])
    | none => (.ok (), [Action.writeEnv (writeEnvLines ctx.envValues),
        Action.log ("Wrote " ++ ctx.envPath)])
  else (.ok (), [Action.log ("Reusing existing " ++ ctx.envPath)])

/-- Embeds `run_cmd_stream` (main.rs 398-479) for the idx-th compose
invocation.  The spawned child's streamed output and final exit code come
from the oracle; the polling/kill loop is summarised by one cooperative stop
check that decides, for a nonzero exit, between the `Stopped.` result and a
command failure, exactly as lines 472-478 do. -/
def runCmdStream (env : Env) (idx : Nat) (label : String) (tick : Nat) :
    Except String Unit × List Action × Nat :=
  let cr := env.composeRun idx
  let acts := Action.spawn label :: Action.log ("$ " ++ label) ::
    (cr.outLines.map Action.log ++ cr.errLines.map (fun l => Action.log ("[stderr] " ++ l)))
  if cr.exitCode = 0 then (.ok (), acts, tick)
  else if env.stop tick then (.error "Stopped.", acts, tick + 1)
  else (.error ("Command failed (exit " ++ intStr cr.exitCode ++ ")."), acts, tick + 1)

/-- Embeds the stack bring-up (main.rs 599-624): the compose-file existence
check, then either the streamed `docker compose up` or the POS-only skip. -/
def stackPhase (env : Env) (ctx : Ctx) (tick : Nat) :
    Except String Unit × List Action × Nat :=
  if !env.composeFileExists && !ctx.skipStart then
    (.error ("Compose file not found: " ++ ctx.composePath), [], tick)
  else if ctx.skipStart then
    (.ok (), [Action.log "Skipping EDGE start (POS-only mode)."], tick)
  else
    let (r, acts, tick') := runCmdStream env 0 "docker compose up" tick
    (r, Action.log "Starting EDGE stack..." :: acts, tick')

/-- Did the health observation succeed (`status == "ok"`, main.rs 385)? -/
def healthOk : HealthObs → Bool
  | .resp status _ => status = "ok"
  | .connErr _ => false

/-- The `last_err` text recorded for a failed health observation
(main.rs 388-390). -/
def healthErrText : HealthObs → String
  | .resp _ shown => "health status=" ++ shown
  | .connErr e => e

/-- Number of poll iterations modelling the 300 s health window with its 2 s
sleep (main.rs 375-396). -/
def healthFuel : Nat := 150

/-- Embeds the loop of `wait_api_healthy` (main.rs 379-394): before every
poll the stop flag is checked at checkpoint `tick` and the loop aborts with
`Stopped.`; otherwise one GET is issued and, unless the status is `ok`, the
failure is logged and the loop retries.  `k` indexes the oracle's health
observations. -/
def waitLoop (env : Env) (url : String) : Nat → Nat → Nat → String →
    Except String Unit × List Action × Nat
  | 0, _, tick, lastErr =>
    (.error ("Edge API did not become healthy in time (300s). Last error: " ++ lastErr),
      [], tick)
  | fuel + 1, k, tick, lastErr =>
    if env.stop tick then (.error "Stopped.", [], tick + 1)
    else
      let obs := env.health k
      if healthOk obs then (.ok (), [Action.healthGet url], tick + 1)
      else
        let msg := healthErrText obs
        let (r, acts, tick') := waitLoop env url fuel (k + 1) (tick + 1) msg
        (r, Action.healthGet url ::
          Action.log ("Waiting for API health... (" ++ msg ++ ")") :: acts, tick')

/-- Embeds the provisioning base-URL resolution and health wait
(main.rs 627-633): an absent or empty `api_base_url` falls back to
`http://127.0.0.1:{api_port}`. -/
def healthPhase (env : Env) (p : OnboardParams) (ctx : Ctx) (tick : Nat) :
    Except String Unit × List Action × Nat :=
  let apiBase0 := trimEndSlashes (trimS (p.api_base_url.getD ""))
  let apiBase := if apiBase0.data.isEmpty then "http://127.0.0.1:" ++ natStr ctx.apiPort
    else apiBase0
  let url := trimEndSlashes apiBase ++ "/health"
  let a0 := Action.log ("Waiting for EDGE API health at " ++ apiBase ++ "/health ...")
  let (r, acts, tick') := waitLoop env url healthFuel 0 tick ""
  match r with
  | .error e => (.error e, a0 :: acts, tick')
  | .ok _ => (.ok (), a0 :: acts ++ [Action.log "EDGE API is healthy."], tick')

/-- Embeds the per-company device loop (main.rs 716-752), iterating the
sequence numbers `i, i+1, ...` for `fuel` steps. -/
def deviceLoop (env : Env) (cid cname : String) (bid bname : Option String)
    (pfx : String) : Nat → Nat → Nat → List DeviceRec →
    Except String Unit × List Action × Nat × List DeviceRec
  | 0, _, tick, devs => (.ok (), [], tick, devs)
  | fuel + 1, i, tick, devs =>
    if env.stop tick then (.error "Stopped.", [], tick + 1, devs)
    else
      let dcode := deviceCode pfx i
      let reg := Action.registerDevice cid dcode (bid.filter (fun s => !(trimS s).data.isEmpty))
      match env.registerRes cid dcode with
      | .error e => (.error e, [reg], tick + 1, devs)
      | .ok r =>
        let did := r.idRaw.getD ""
        let dtok := r.tokenRaw.getD ""
        if (trimS did).data.isEmpty || (trimS dtok).data.isEmpty then
          (.error ("Failed to register device " ++ dcode ++ " for company " ++ cid),
            [reg], tick + 1, devs)
        else
          let rec0 : DeviceRec := {
            company_id := cid, company_name := cname,
            branch_id := bid, branch_name := bname,
            device_code := dcode, device_id := did, device_token := dtok }
          let (res, acts, tick', devs') :=
            deviceLoop env cid cname bid bname pfx fuel (i + 1) (tick + 1) (devs ++ [rec0])
          (res, reg :: Action.log ("  - " ++ dcode ++ " registered") :: acts, tick', devs')

/-- Embeds the company loop (main.rs 682-753): cooperative stop check, skip
of companies with empty ids or outside the requested filter, branch listing
and first-branch selection, then the device loop. -/
def companyLoop (env : Env) (requested : List String) (count : Nat) :
    List Company → Nat → List DeviceRec →
    Except String Unit × List Action × Nat × List DeviceRec
  | [], tick, devs => (.ok (), [], tick, devs)
  | c :: rest, tick, devs =>
    if env.stop tick then (.error "Stopped.", [], tick + 1, devs)
    else
      let cid := trimS (c.idRaw.getD "")
      if cid.data.isEmpty then companyLoop env requested count rest (tick + 1) devs
      else if !requested.isEmpty && !(requested.contains cid) then
        companyLoop env requested count rest (tick + 1) devs
      else
        let cname := c.nameRaw.getD cid
        match env.branchesRes cid with
        | .error e => (.error e, [Action.listBranches cid], tick + 1, devs)
        | .ok branches =>
          let bid := branches.head?.bind (fun b => b.idRaw)
          let bname := branches.head?.bind (fun b => b.nameRaw)
          let pfx := deviceCodePfx cname
          let acts0 := [Action.listBranches cid,
            Action.log ("Registering devices for " ++ cname ++ " (" ++ cid ++ ") ...")]
          let (r, acts1, tick', devs') :=
            deviceLoop env cid cname bid bname pfx count 1 (tick + 1) devs
          match r with
          | .error e => (.error e, acts0 ++ acts1, tick', devs')
          | .ok _ =>
            let (r2, acts2, tick2, devs2) := companyLoop env requested count rest tick' devs'
            (r2, acts0 ++ acts1 ++ acts2, tick2, devs2)

/-- Embeds the provisioning step (main.rs 648-756): admin login with the
MFA and missing-token errors, company listing with the empty-companies
error, then the company loop; all skipped in `onprem` mode. -/
def provisionPhase (env : Env) (p : OnboardParams) (ctx : Ctx) (tick : Nat) :
    Except String Unit × List Action × Nat × List DeviceRec :=
  if ctx.skipDevices then
    (.ok (), [Action.log "Skipping POS device registration (on-prem only mode)."], tick, [])
  else
    let pre := [Action.log "Authenticating admin...",
      Action.loginCall ctx.adminEmail ctx.adminPassword]
    match env.loginRes with
    | .error e => (.error e, pre, tick, [])
    | .ok l =>
      if l.mfaRaw.getD false then
        (.error "Admin user requires MFA; automation cannot continue. Use a bootstrap admin without MFA.",
          pre, tick, [])
      else if (trimS (l.tokenRaw.getD "")).data.isEmpty then
        (.error "Login succeeded but no token was returned.", pre, tick, [])
      else
        match env.companiesRes with
        | .error e => (.error e, pre ++ [Action.listCompanies], tick, [])
        | .ok companies =>
          if companies.isEmpty then
            (.error "No companies available for this admin user. Cannot provision POS devices.",
              pre ++ [Action.listCompanies], tick, [])
          else
            let requested := ((p.companies.getD []).map trimS).filter
              (fun s => !s.data.isEmpty)
            let count := Nat.max (p.device_count.getD 1) 1
            let (r, acts, tick', devs) := companyLoop env requested count companies tick []
            (r, pre ++ Action.listCompanies :: acts, tick', devs)

/-! ### Launcher prefill (main.rs 804-851) -/

/-- Embeds the `pick` closure (main.rs 805-820): the first device whose
lowercased tenant name matches the role; for the `official` role the name
must contain `official` but not `unofficial`. -/
def pick (devices : List DeviceRec) (kind : String) : Option DeviceRec :=
  let kindL := lowerS kind
  devices.find? (fun d =>
    let nameL := lowerS d.company_name
    if kindL = "official" then sContains nameL "official" && !(sContains nameL "unofficial")
    else sContains nameL kindL)

/-- Embeds the slot fallback chain (main.rs 821-831): first device for a
missing official, second device for a missing unofficial when two or more
devices exist, and finally the official device duplicated into the
unofficial slot. -/
def chooseSlots (devices : List DeviceRec) : Option DeviceRec × Option DeviceRec :=
  let official0 := pick devices "official"
  let unofficial0 := pick devices "unofficial"
  let official := if official0.isNone then devices.head? else official0
  let unofficial1 := if unofficial0.isNone && decide (devices.length > 1)
    then devices.get? 1 else unofficial0
  let unofficial := if unofficial1.isNone then official else unofficial1
  (official, unofficial)

/-- The fields of `tauri-launcher-prefill.json` (main.rs 834-851). -/
structure Prefill where
  cloudUrl : String
  edgeLanUrl : String
  edgeUrl : String
  portOfficial : Nat
  portUnofficial : Nat
  companyOfficial : String
  companyUnofficial : String
  deviceIdOfficial : String
  deviceTokenOfficial : String
  deviceIdUnofficial : String
  deviceTokenUnofficial : String
  deriving DecidableEq, Repr

/-- Embeds the construction of the launcher-prefill JSON (main.rs 821-851). -/
def mkPrefill (cloudUrl edgeApiUrl : String) (devices : List DeviceRec) : Prefill :=
  let slots := chooseSlots devices
  let off := slots.1
  let un := slots.2
  { cloudUrl := cloudUrl
    edgeLanUrl := edgeApiUrl
    edgeUrl := if cloudUrl.data.isEmpty then edgeApiUrl else cloudUrl
    portOfficial := 7070
    portUnofficial := 7072
    companyOfficial := (off.map (fun d => d.company_id)).getD ""
    companyUnofficial := (un.map (fun d => d.company_id)).getD ""
    deviceIdOfficial := (off.map (fun d => d.device_id)).getD ""
    deviceTokenOfficial := (off.map (fun d => d.device_token)).getD ""
    deviceIdUnofficial := (un.map (fun d => d.device_id)).getD ""
    deviceTokenUnofficial := (un.map (fun d => d.device_token)).getD "" }

/-! ### Artifact bundle, hardening and run assembly -/

/-- Embeds the device-pack write loop (main.rs 765-779); `fsIdx` indexes the
oracle's filesystem results. -/
def packLoop (env : Env) (outDir : String) : List DeviceRec → Nat →
    Except String Unit × List Action × Nat
  | [], fsIdx => (.ok (), [], fsIdx)
  | d :: rest, fsIdx =>
    let path := outDir ++ "/pos-device-packs/" ++ slug d.company_name ++ "__" ++
      slug d.device_code ++ ".json"
    match env.fsRes fsIdx with
    | some e => (.error e, [Action.fsWrite path], fsIdx + 1)
    | none =>
      let (r, acts, fsIdx') := packLoop env outDir rest (fsIdx + 1)
      (r, Action.fsWrite path :: acts, fsIdx')

/-- Embeds the output-bundle step (main.rs 759-859): skipped when no device
was provisioned, otherwise the timestamped directory, one pack per device,
`summary.json`, `tauri-launcher-prefill.json` and `README.txt`, any
filesystem failure aborting the run. -/
def artifactPhase (env : Env) (ctx : Ctx) (devices : List DeviceRec) :
    Except String Unit × List Action :=
  if devices.isEmpty then (.ok (), [])
  else
    let outDir := ctx.onboardingRoot ++ "/" ++ env.timestamp
    let mkdirAct := Action.fsWrite (outDir ++ "/pos-device-packs")
    match env.fsRes 0 with
    | some e => (.error e, [mkdirAct])
    | none =>
      match packLoop env outDir devices 1 with
      | (.error e, acts, _) => (.error e, mkdirAct :: acts)
      | (.ok _, acts, fsIdx) =>
        let sumAct := Action.fsWrite (outDir ++ "/summary.json")
        match env.fsRes fsIdx with
        | some e => (.error e, mkdirAct :: acts ++ [sumAct])
        | none =>
          let preAct := Action.fsWrite (outDir ++ "/tauri-launcher-prefill.json")
          match env.fsRes (fsIdx + 1) with
          | some e => (.error e, mkdirAct :: acts ++ [sumAct, preAct])
          | none =>
            let rdAct := Action.fsWrite (outDir ++ "/README.txt")
            match env.fsRes (fsIdx + 2) with
            | some e => (.error e, mkdirAct :: acts ++ [sumAct, preAct, rdAct])
            | none =>
              (.ok (), mkdirAct :: acts ++ [sumAct, preAct, rdAct,
                Action.log ("Exported onboarding bundle to: " ++ outDir)])

/-- Embeds the hardening step (main.rs 862-881): on fresh installs or
explicit env updates the bootstrap flags are flipped off and the file
rewritten, then (unless the stack start was skipped) a compose refresh is
run whose result is deliberately discarded. -/
def hardenPhase (env : Env) (ctx : Ctx) (tick : Nat) :
    Except String Unit × List Action × Nat :=
  if ctx.shouldWrite then
    let vals2 := envInsert (envInsert ctx.envValues "BOOTSTRAP_ADMIN" "0")
      "BOOTSTRAP_ADMIN_RESET_PASSWORD" "0"
    match env.writeRes 1 with
    | some e => (.error e, [Action.writeEnv (writeEnvLines vals2)], tick)
    | none =>
      let a1 := [Action.writeEnv (writeEnvLines vals2),
        Action.log "Updated .env.edge to disable bootstrap reset on future restarts."]
      if !ctx.skipStart then
        let (_, acts, tick') := runCmdStream env 1 "docker compose up (refresh)" tick
        (.ok (), a1 ++ Action.log "Applying final hardened env (quick compose refresh)..." :: acts,
          tick')
      else (.ok (), a1, tick)
  else (.ok (), [], tick)

/-- Embeds the closing log block and final cooperative stop check
(main.rs 883-898). -/
def finishPhase (env : Env) (ctx : Ctx) (tick : Nat) :
    Except String Unit × List Action × Nat :=
  let acts := [Action.log "", Action.log "Onboarding complete.",
      Action.log ("- Edge API URL for POS: " ++ ctx.edgeUrl)] ++
    (if ctx.syncEnabled then [Action.log ("- Edge->Cloud sync target: " ++ ctx.cloudUrl)]
      else [Action.log "- Edge->Cloud sync: disabled"]) ++
    (if ctx.generatedPwd then
      [Action.log "- Bootstrap admin password was auto-generated for this run:",
        Action.log ("  " ++ ctx.adminPassword)]
      else [])
  if env.stop tick then (.error "Stopped.", acts, tick + 1) else (.ok (), acts, tick + 1)

/-- Embeds `run_onboarding_internal` (main.rs 481-899) as the sequential
composition of its phases; the result pairs the Rust `Result<(), String>`
with the ordered trace of side effects. -/
def runOnboardingInternal (env : Env) (p : OnboardParams) :
    Except String Unit × List Action :=
  match bundlePhase env p with
  | (.error e, acts) => (.error e, acts)
  | (.ok _, bActs) =>
    match resolveCtx env p with
    | .error e => (.error e, bActs)
    | .ok ctx =>
      match writePhase env ctx with
      | (.error e, wActs) => (.error e, bActs ++ wActs)
      | (.ok _, wActs) =>
        match stackPhase env ctx 0 with
        | (.error e, sActs, _) => (.error e, bActs ++ wActs ++ sActs)
        | (.ok _, sActs, t1) =>
          match healthPhase env p ctx t1 with
          | (.error e, hActs, _) => (.error e, bActs ++ wActs ++ sActs ++ hActs)
          | (.ok _, hActs, t2) =>
            match provisionPhase env p ctx t2 with
            | (.error e, pActs, _, _) =>
              (.error e, bActs ++ wActs ++ sActs ++ hActs ++ pActs)
            | (.ok _, pActs, t3, devices) =>
              match artifactPhase env ctx devices with
              | (.error e, aActs) =>
                (.error e, bActs ++ wActs ++ sActs ++ hActs ++ pActs ++ aActs)
              | (.ok _, aActs) =>
                match hardenPhase env ctx t3 with
                | (.error e, dActs, _) =>
                  (.error e, bActs ++ wActs ++ sActs ++ hActs ++ pActs ++ aActs ++ dActs)
                | (.ok _, dActs, t4) =>
                  let (r, fActs, _) := finishPhase env ctx t4
                  (r, bActs ++ wActs ++ sActs ++ hActs ++ pActs ++ aActs ++ dActs ++ fActs)

/-! ### The Tauri commands (`start_onboarding` / `stop_onboarding`) -/

/-- Embeds the synchronous part of `start_onboarding` (main.rs 912-935): the
single-run guard under the mutex, the Docker prerequisite check, and the log
emitted before the background thread is spawned.  The returned actions are
the events emitted by this synchronous part. -/
def startOnboarding (st : RunnerState) (dockerOk dockerComposeOk : Bool) :
    RunnerState × Except String Unit × List Action :=
  if st.running then (st, .error "Onboarding is already running.", [])
  else
    let st1 : RunnerState := { running := true, stop_requested := false, child := none }
    if !dockerOk || !dockerComposeOk then
      ({ st1 with running := false },
        .error "Docker/Docker Compose not available. Install/upgrade Docker Desktop first.", [])
    else (st1, .ok (), [Action.log "Starting onboarding..."])

/-- Embeds the background thread of `start_onboarding` (main.rs 938-952):
run the onboarding, map `Ok` to exit code 0 and any `Err` to an error log
plus exit code 1, clear the runner state, and emit the terminal done event. -/
def runThread (env : Env) (p : OnboardParams) (st : RunnerState) :
    RunnerState × List Action :=
  let r := runOnboardingInternal env p
  let tail := match r.1 with
    | .ok _ => [Action.doneEv 0]
    | .error e => [Action.log ("[error] " ++ e), Action.doneEv 1]
  ({ st with child := none, running := false }, r.2 ++ tail)

/-- Embeds `stop_onboarding` (main.rs 901-909): set the stop flag, kill and
drop any registered child, always succeed. -/
def stopOnboarding (st : RunnerState) : RunnerState × Except String Unit :=
  ({ st with stop_requested := true, child := none }, .ok ())

/-! ### Concrete fixtures used by witnesses and counterexamples -/

/-- A provisioned device of the tenant `Acme Official`. -/
def devAcmeOff : DeviceRec :=
  { company_id := "c1", company_name := "Acme Official", branch_id := none,
    branch_name := none, device_code := "ACME-OFFICIAL-POS-01", device_id := "d1",
    device_token := "t1" }

/-- A provisioned device of the tenant `Acme Unofficial`. -/
def devAcmeUn : DeviceRec :=
  { company_id := "c2", company_name := "Acme Unofficial", branch_id := none,
    branch_name := none, device_code := "ACME-UNOFFICIA-POS-01", device_id := "d2",
    device_token := "t2" }

/-- A constant entropy stream for concrete fixtures. -/
def rngZero : Nat → Fin 62 := fun _ => ⟨0, by decide⟩

/-- An oracle for which every external step succeeds: no stop request, no
prior config file, bundled assets present, the stack comes up, the API is
healthy at once, login returns a token, one tenant with no branches, and
device registration succeeds. -/
def envOk : Env :=
  { stop := fun _ => false
    rng := rngZero
    repoLayout := false
    bundleRes := .ok ()
    fileLines := none
    envExists := false
    defaultEdgeHome := "/home/edge"
    hostname := "edgehost"
    writeRes := fun _ => none
    composeFileExists := true
    composeRun := fun _ => { outLines := [], errLines := [], exitCode := 0 }
    health := fun _ => .resp "ok" "ok"
    loginRes := .ok { mfaRaw := some false, tokenRaw := some "tok" }
    companiesRes := .ok [{ idRaw := some "c1", nameRaw := some "Acme Official" }]
    branchesRes := fun _ => .ok []
    registerRes := fun _ _ => .ok { idRaw := some "dev1", tokenRaw := some "dtok1" }
    fsRes := fun _ => none
    timestamp := "20260101-000000" }

/-- A hybrid-mode request with no optional fields set. -/
def pHybrid : OnboardParams :=
  { repo_path := ""
    mode := "hybrid"
    edge_home := none
    api_port := none
    admin_port := none
    api_base_url := none
    edge_api_url_for_pos := "http://192.168.1.10:8001"
    admin_email := none
    admin_password := none
    device_count := none
    companies := none
    enable_sync := none
    cloud_api_url := none
    edge_sync_key := none
    edge_node_id := none
    update_env := none }

/-- The same request in POS-only mode. -/
def pPos : OnboardParams := { pHybrid with mode := "pos" }

/-- An oracle whose stop flag is set from the very first checkpoint. -/
def envStopAll : Env := { envOk with stop := fun _ => true }

/-- An oracle in which the compose file is missing, so the stack bring-up
fails. -/
def envNoCompose : Env := { envOk with composeFileExists := false }

/-- An oracle whose persisted config file exists but is malformed. -/
def envMalformed : Env :=
  { envOk with fileLines := some ["%%% garbage", "ALSO BAD"], envExists := true }

/-- An oracle in which writing the config file fails with an IO error. -/
def envWriteFail : Env := { envOk with writeRes := fun _ => some "io error" }

/-- The configuration resolved for `envWriteFail` / `pHybrid`. -/
def ctxWF : Ctx := (resolveCtx envWriteFail pHybrid).toOption.getD default

/-- A stop flag that becomes (and stays) set at checkpoint `t0`: the
monotone behaviour of `stop_requested` during a run in which the operator
presses Stop once. -/
def stopAt (t0 : Nat) : Nat → Bool := fun t => decide (t0 ≤ t)

/-- An oracle for a POS-mode run in which the API never becomes healthy and
the operator requests a stop at checkpoint 3. -/
def envStopDuringWait : Env :=
  { envOk with stop := stopAt 3, health := fun _ => .connErr "connection refused" }

/-- The configuration resolved for `envStopDuringWait` / `pPos`. -/
def ctxStopWait : Ctx := (resolveCtx envStopDuringWait pPos).toOption.getD default

/-- The configuration resolved for `envOk` / `pPos`. -/
def ctxPos : Ctx := (resolveCtx envOk pPos).toOption.getD default

/-- A runner state with no active run (and a stale stop flag, to show that
acquisition clears it). -/
def stIdle : RunnerState := { child := none, stop_requested := true, running := false }

/-- A runner state with an active run. -/
def stBusy : RunnerState := { child := none, stop_requested := false, running := true }

/-- An oracle with a persisted config holding a non-empty Postgres password
but no other secret. -/
def envPrev : Env :=
  { envOk with fileLines := some ["POSTGRES_PASSWORD=keepme"], envExists := true }

/-- The configuration resolved for `envPrev` / `pHybrid`. -/
def ctxPrev : Ctx := (resolveCtx envPrev pHybrid).toOption.getD default

/-- The configuration resolved for `envOk` / `pHybrid`. -/
def ctxOk : Ctx := (resolveCtx envOk pHybrid).toOption.getD default

/-! ### Character-level facts -/

theorem charToNatOfNat (n : Nat) (h : n.isValidChar) : (Char.ofNat n).toNat = n := by
  unfold Char.ofNat
  rw [dif_pos h]
  unfold Char.ofNatAux
  simp [Char.toNat, UInt32.toNat]

theorem upperOfLower (c : Char) (h : c.isLower = true) : (c.toUpper).isUpper = true := by
  simp only [Char.isLower, ge_iff_le, Bool.and_eq_true, decide_eq_true_eq] at h
  obtain ⟨h1, h2⟩ := h
  have h1' : 97 ≤ c.toNat := h1
  have h2' : c.toNat ≤ 122 := h2
  have hval : (c.toNat - 32).isValidChar := Or.inl (by omega)
  have hn := charToNatOfNat (c.toNat - 32) hval
  simp only [Char.toUpper]
  rw [if_pos (show c.toNat ≥ 97 ∧ c.toNat ≤ 122 from ⟨h1', h2'⟩)]
  simp only [Char.isUpper, ge_iff_le, Bool.and_eq_true, decide_eq_true_eq]
  constructor
  · show (65 : Nat) ≤ (Char.ofNat (c.toNat - 32)).toNat
    omega
  · show (Char.ofNat (c.toNat - 32)).toNat ≤ (90 : Nat)
    omega

theorem toUpperOfNotLower (c : Char) (h : c.isLower = false) : c.toUpper = c := by
  simp only [Char.toUpper]
  rw [if_neg]
  intro hc
  obtain ⟨ha, hb⟩ := hc
  have ha' : 97 ≤ c.toNat := ha
  have hb' : c.toNat ≤ 122 := hb
  have : (decide (97 ≤ c.val) && decide (c.val ≤ 122)) = false := by
    simpa [Char.isLower] using h
  rw [Bool.and_eq_false_iff] at this
  rcases this with h' | h'
  · rw [decide_eq_false_iff_not] at h'
    exact h' ha'
  · rw [decide_eq_false_iff_not] at h'
    exact h' hb'

/-- A character is an uppercase letter, a digit, or a hyphen: the shape of
every character `device_code_prefix` can emit. -/
def goodChar (c : Char) : Prop := c.isUpper = true ∨ c.isDigit = true ∨ c = '-'

theorem goodChar_toUpper (c : Char) (h : c.isAlphanum = true) : goodChar c.toUpper := by
  by_cases hl : c.isLower = true
  · exact Or.inl (upperOfLower c hl)
  · rw [Bool.not_eq_true] at hl
    rw [toUpperOfNotLower c hl]
    simp only [Char.isAlphanum, Char.isAlpha, Bool.or_eq_true] at h
    rcases h with (h | h) | h
    · exact Or.inl h
    · rw [hl] at h; exact absurd h (by decide)
    · exact Or.inr (Or.inl h)

theorem toUpper_ne_dash (c : Char) (h : c.isAlphanum = true) : c.toUpper ≠ '-' := by
  by_cases hl : c.isLower = true
  · have hu := upperOfLower c hl
    intro he
    rw [he] at hu
    exact absurd hu (by decide)
  · rw [Bool.not_eq_true] at hl
    rw [toUpperOfNotLower c hl]
    intro he
    rw [he] at h
    exact absurd h (by decide)

/-- Value of a digit list, least significant digit first. -/
def valRev : List Char → Nat
  | [] => 0
  | c :: cs => digitVal c + 10 * valRev cs

/-- Value of a decimal string, most significant digit first. -/
def strValR (l : List Char) : Nat := valRev l.reverse

theorem digitVal_digitChar (d : Nat) (h : d < 10) : digitVal (digitChar d) = d := by
  interval_cases d <;> rfl

theorem digitChar_isDigit (d : Nat) (h : d < 10) : (digitChar d).isDigit = true := by
  interval_cases d <;> rfl

theorem valRev_digitsRev : ∀ fuel n, n ≤ fuel → valRev (digitsRev fuel n) = n := by
  intro fuel
  induction fuel with
  | zero => intro n h; interval_cases n; rfl
  | succ fuel ih =>
    intro n h
    by_cases hz : n = 0
    · subst hz; simp [digitsRev, valRev]
    · have hdiv : n / 10 ≤ fuel := by
        have hlt : n / 10 < n := Nat.div_lt_self (Nat.pos_of_ne_zero hz) (by decide)
        omega
      simp only [digitsRev, if_neg hz, valRev]
      rw [digitVal_digitChar (n % 10) (Nat.mod_lt n (by omega)), ih (n / 10) hdiv]
      omega

theorem valRev_append_zero (xs : List Char) : valRev (xs ++ ['0']) = valRev xs := by
  induction xs with
  | nil => rfl
  | cons c cs ih => simp [valRev, ih]

theorem strValR_natStr (n : Nat) : strValR (natStr n).data = n := by
  by_cases hz : n = 0
  · subst hz; rfl
  · simp only [natStr, if_neg hz, strValR]
    show valRev (digitsRev n n).reverse.reverse = n
    rw [List.reverse_reverse]
    exact valRev_digitsRev n n le_rfl

theorem strValR_pad2 (n : Nat) : strValR (pad2 n).data = n := by
  by_cases h10 : n < 10
  · simp only [pad2, if_pos h10]
    show strValR (("0" ++ natStr n).data) = n
    rw [String.data_append]
    show valRev (('0' :: (natStr n).data).reverse) = n
    rw [List.reverse_cons, valRev_append_zero]
    exact strValR_natStr n
  · simp only [pad2, if_neg h10]
    exact strValR_natStr n

theorem pad2_inj (i j : Nat) (h : pad2 i = pad2 j) : i = j := by
  have : strValR (pad2 i).data = strValR (pad2 j).data := by rw [h]
  rwa [strValR_pad2, strValR_pad2] at this

theorem digitsRev_all_digits : ∀ fuel n, ∀ c ∈ digitsRev fuel n, c.isDigit = true := by
  intro fuel
  induction fuel with
  | zero => intro n c hc; simp [digitsRev] at hc
  | succ fuel ih =>
    intro n c hc
    by_cases hz : n = 0
    · subst hz; simp [digitsRev] at hc
    · simp only [digitsRev, if_neg hz, List.mem_cons] at hc
      rcases hc with hc | hc
      · subst hc; exact digitChar_isDigit _ (Nat.mod_lt n (by omega))
      · exact ih (n / 10) c hc

theorem natStr_all_digits (n : Nat) : ∀ c ∈ (natStr n).data, c.isDigit = true := by
  by_cases hz : n = 0
  · subst hz; intro c hc; simp [natStr] at hc; subst hc; rfl
  · simp only [natStr, if_neg hz]
    intro c hc
    exact digitsRev_all_digits n n c (List.mem_reverse.mp hc)

theorem pad2_all_digits (n : Nat) : ∀ c ∈ (pad2 n).data, c.isDigit = true := by
  by_cases h10 : n < 10
  · simp only [pad2, if_pos h10]
    intro c hc
    rw [String.data_append] at hc
    rcases List.mem_append.mp hc with hc | hc
    · simp at hc; subst hc; rfl
    · exact natStr_all_digits n c hc
  · simp only [pad2, if_neg h10]
    exact natStr_all_digits n

theorem digitsRev_ne_nil (fuel n : Nat) (hf : 1 ≤ fuel) (hn : n ≠ 0) :
    digitsRev fuel n ≠ [] := by
  match fuel, hf with
  | fuel + 1, _ => simp [digitsRev, if_neg hn]

theorem pad2_len_ge_two (n : Nat) : 2 ≤ (pad2 n).data.length := by
  by_cases h10 : n < 10
  · simp only [pad2, if_pos h10]
    rw [String.data_append]
    by_cases hz : n = 0
    · subst hz; rfl
    · simp only [natStr, if_neg hz]
      have := digitsRev_ne_nil n n (by omega) hz
      have h2 : 1 ≤ (digitsRev n n).length := by
        cases hd : digitsRev n n with
        | nil => exact absurd hd this
        | cons a l => simp
      simp only [List.length_append, List.length_reverse, List.length_cons,
        List.length_nil]
      omega
  · simp only [pad2, if_neg h10]
    simp only [natStr, if_neg (by omega : ¬n = 0)]
    show 2 ≤ (digitsRev n n).reverse.length
    rw [List.length_reverse]
    have h1 : n ≠ 0 := by omega
    match hn : n, h10 with
    | n + 1, _ =>
      simp only [digitsRev, if_neg (by omega : ¬n + 1 = 0), List.length_cons]
      have hq : (n + 1) / 10 ≠ 0 := by omega
      have hf : 1 ≤ n := by omega
      have := digitsRev_ne_nil n ((n + 1) / 10) hf hq
      have h2 : 1 ≤ (digitsRev n ((n + 1) / 10)).length := by
        cases hd : digitsRev n ((n + 1) / 10) with
        | nil => exact absurd hd this
        | cons a l => simp
      omega

/-! ### Random-secret facts -/

theorem alphaChar_isAlphanum (k : Fin 62) : (alphaChar k).isAlphanum = true := by
  revert k; decide

theorem randSecret_length (rng : Nat → Fin 62) (off len : Nat) :
    (randSecret rng off len).data.length = len := by
  simp [randSecret]

theorem randSecret_all_alnum (rng : Nat → Fin 62) (off len : Nat) :
    ∀ c ∈ (randSecret rng off len).data, c.isAlphanum = true := by
  intro c hc
  simp only [randSecret] at hc
  rcases List.mem_map.mp hc with ⟨i, _, rfl⟩
  exact alphaChar_isAlphanum _

/-! ### Structure of device-code prefixes -/

/-- No two adjacent hyphens (hyphen runs are collapsed). -/
def noDD (a b : Char) : Prop := ¬(a = '-' ∧ b = '-')

theorem head_dropWhile_not (p : Char → Bool) (l : List Char) (a : Char)
    (h : (l.dropWhile p).head? = some a) : p a = false := by
  induction l with
  | nil => simp [List.dropWhile] at h
  | cons c cs ih =>
    rw [List.dropWhile_cons] at h
    by_cases hp : p c = true
    · rw [if_pos hp] at h; exact ih h
    · rw [if_neg hp] at h
      simp at h
      subst h
      exact Bool.not_eq_true _ |>.mp hp

theorem cleanRev_mem (l : List Char) : ∀ acc, (∀ c ∈ acc, goodChar c) →
    ∀ c ∈ l.foldl cleanRev acc, goodChar c := by
  induction l with
  | nil => intro acc h c hc; exact h c hc
  | cons ch rest ih =>
    intro acc hacc
    rw [List.foldl_cons]
    refine ih (cleanRev acc ch) ?_
    intro c hc
    unfold cleanRev at hc
    by_cases ha : ch.isAlphanum = true
    · rw [if_pos ha] at hc
      rcases List.mem_cons.mp hc with hc | hc
      · subst hc; exact goodChar_toUpper ch ha
      · exact hacc c hc
    · rw [if_neg (by simpa using ha)] at hc
      split at hc
      · exact hacc c hc
      · rcases List.mem_cons.mp hc with hc | hc
        · subst hc; exact Or.inr (Or.inr rfl)
        · exact hacc c hc

theorem cleanRev_chain (l : List Char) : ∀ acc, List.Chain' noDD acc →
    List.Chain' noDD (l.foldl cleanRev acc) := by
  induction l with
  | nil => intro acc h; exact h
  | cons ch rest ih =>
    intro acc hacc
    rw [List.foldl_cons]
    refine ih (cleanRev acc ch) ?_
    unfold cleanRev
    by_cases ha : ch.isAlphanum = true
    · rw [if_pos ha]
      cases acc with
      | nil => exact List.chain'_singleton _
      | cons a t =>
        exact List.chain'_cons.mpr ⟨fun hp => toUpper_ne_dash ch ha hp.1, hacc⟩
    · rw [if_neg (by simpa using ha)]
      split
      · exact hacc
      · next hne =>
        cases acc with
        | nil => exact List.chain'_singleton _
        | cons a t =>
          refine List.chain'_cons.mpr ⟨fun hp => ?_, hacc⟩
          exact hne t (by rw [hp.2])

theorem trimDash_within (l : List Char) : trimDash l <:+: l := by
  unfold trimDash
  have h1 : (l.dropWhile (fun c => c = '-')) <:+ l := List.dropWhile_suffix _
  have h2 : ((l.dropWhile (fun c => c = '-')).reverse.dropWhile (fun c => c = '-'))
      <:+ (l.dropWhile (fun c => c = '-')).reverse := List.dropWhile_suffix _
  have h3 : ((l.dropWhile (fun c => c = '-')).reverse.dropWhile (fun c => c = '-')).reverse
      <+: l.dropWhile (fun c => c = '-') := by
    rw [← List.reverse_suffix, List.reverse_reverse]
    exact h2
  exact h3.isInfix.trans h1.isInfix

theorem trimDash_head (l : List Char) (c : Char) (h : (trimDash l).head? = some c) :
    c ≠ '-' := by
  unfold trimDash at h
  rw [List.head?_reverse] at h
  obtain ⟨t, ht⟩ := List.dropWhile_suffix
    (l := (l.dropWhile (fun c => c = '-')).reverse) (fun c => c = '-')
  have hz : ((l.dropWhile (fun c => c = '-')).reverse.dropWhile (fun c => c = '-')) ≠ [] := by
    intro he
    rw [he] at h
    simp at h
  have hlast : (l.dropWhile (fun c => c = '-')).reverse.getLast? = some c := by
    rw [← ht, List.getLast?_append_of_ne_nil _ hz]
    exact h
  rw [List.getLast?_reverse] at hlast
  have := head_dropWhile_not (fun c => c = '-') l c hlast
  simpa using this

theorem trimDash_getLast (l : List Char) (c : Char) (h : (trimDash l).getLast? = some c) :
    c ≠ '-' := by
  unfold trimDash at h
  rw [List.getLast?_reverse] at h
  have := head_dropWhile_not (fun c => c = '-') _ c h
  simpa using this

theorem cleanRev_all_dash (l : List Char) : ∀ acc, (∀ c ∈ l, c.isAlphanum = false) →
    (∀ c ∈ acc, c = '-') → ∀ c ∈ l.foldl cleanRev acc, c = '-' := by
  induction l with
  | nil => intro acc _ hacc c hc; exact hacc c hc
  | cons ch rest ih =>
    intro acc hl hacc
    rw [List.foldl_cons]
    refine ih _ (fun c hc => hl c (List.mem_cons_of_mem _ hc)) ?_
    intro c hc
    unfold cleanRev at hc
    rw [if_neg (by simp [hl ch (List.mem_cons_self _ _)])] at hc
    split at hc
    · exact hacc c hc
    · rcases List.mem_cons.mp hc with hc | hc
      · exact hc
      · exact hacc c hc

theorem trimDash_all_dash (m : List Char) (h : ∀ c ∈ m, c = '-') : trimDash m = [] := by
  unfold trimDash
  have h1 : m.dropWhile (fun c => c = '-') = [] := by
    rw [List.dropWhile_eq_nil_iff]
    intro x hx
    simp [h x hx]
  rw [h1]
  rfl

theorem alnum_not_ws (c : Char) (h : c.isAlphanum = true) : c.isWhitespace = false := by
  by_contra hw
  simp only [Bool.not_eq_false] at hw
  simp only [Char.isWhitespace] at hw
  rcases Bool.or_eq_true_iff.mp hw with h1 | h1
  · rcases Bool.or_eq_true_iff.mp h1 with h2 | h2
    · rcases Bool.or_eq_true_iff.mp h2 with h3 | h3
      · rw [decide_eq_true_iff] at h3; subst h3; exact absurd h (by decide)
      · rw [decide_eq_true_iff] at h3; subst h3; exact absurd h (by decide)
    · rw [decide_eq_true_iff] at h2; subst h2; exact absurd h (by decide)
  · rw [decide_eq_true_iff] at h1; subst h1; exact absurd h (by decide)

/-! ### Shapes of the action traces of the phases -/

theorem bundlePhase_acts (env : Env) (p : OnboardParams) :
    ∀ a ∈ (bundlePhase env p).2, a = Action.ensureBundle := by
  intro a ha
  simp only [bundlePhase] at ha
  split at ha
  · split at ha <;> simpa using ha
  · simp at ha

theorem writePhase_acts (env : Env) (ctx : Ctx) :
    ∀ a ∈ (writePhase env ctx).2, a.isSpawn = false ∧ a.isProvisioning = false ∧
      a.isHealthGet = false := by
  intro a ha
  unfold writePhase at ha
  split at ha
  · split at ha
    · simp at ha
      subst ha
      exact ⟨rfl, rfl, rfl⟩
    · simp at ha
      rcases ha with ha | ha <;> subst ha <;> exact ⟨rfl, rfl, rfl⟩
  · simp at ha
    subst ha
    exact ⟨rfl, rfl, rfl⟩

theorem runCmdStream_acts (env : Env) (idx : Nat) (label : String) (tick : Nat) :
    ∀ a ∈ (runCmdStream env idx label tick).2.1,
      a.isProvisioning = false ∧ a.isHealthGet = false ∧ a.isWriteEnv = false := by
  intro a ha
  simp only [runCmdStream] at ha
  have hd : a = Action.spawn label ∨ a = Action.log ("$ " ++ label) ∨
      (∃ l ∈ (env.composeRun idx).outLines, Action.log l = a) ∨
      (∃ l ∈ (env.composeRun idx).errLines, Action.log ("[stderr] " ++ l) = a) := by
    split at ha
    · simpa using ha
    · split at ha <;> simpa using ha
  rcases hd with rfl | rfl | ⟨l, _, rfl⟩ | ⟨l, _, rfl⟩ <;> exact ⟨rfl, rfl, rfl⟩

theorem stackPhase_acts (env : Env) (ctx : Ctx) (tick : Nat) :
    ∀ a ∈ (stackPhase env ctx tick).2.1,
      a.isProvisioning = false ∧ a.isHealthGet = false ∧ a.isWriteEnv = false := by
  intro a ha
  have hrcs := runCmdStream_acts env 0 "docker compose up" tick
  simp only [stackPhase] at ha
  split at ha
  · simp at ha
  · split at ha
    · simp at ha
      subst ha
      exact ⟨rfl, rfl, rfl⟩
    · rcases List.mem_cons.mp ha with h | h
      · subst h; exact ⟨rfl, rfl, rfl⟩
      · exact hrcs a h

theorem stackPhase_skip_no_spawn (env : Env) (ctx : Ctx) (tick : Nat)
    (h : ctx.skipStart = true) :
    ∀ a ∈ (stackPhase env ctx tick).2.1, a.isSpawn = false := by
  intro a ha
  simp only [stackPhase, h] at ha
  split at ha
  · simp at ha
  · simp at ha
    subst ha
    rfl

theorem waitLoop_acts (env : Env) (url : String) :
    ∀ fuel k tick lastErr, ∀ a ∈ (waitLoop env url fuel k tick lastErr).2.1,
      a.isSpawn = false ∧ a.isProvisioning = false ∧ a.isWriteEnv = false := by
  intro fuel
  induction fuel with
  | zero => intro k tick lastErr a ha; simp [waitLoop] at ha
  | succ fuel ih =>
    intro k tick lastErr a ha
    have ihw := ih (k + 1) (tick + 1) (healthErrText (env.health k))
    simp only [waitLoop] at ha
    split at ha
    · simp at ha
    · split at ha
      · simp at ha
        subst ha
        exact ⟨rfl, rfl, rfl⟩
      · rcases List.mem_cons.mp ha with h | h
        · subst h; exact ⟨rfl, rfl, rfl⟩
        rcases List.mem_cons.mp h with h | h
        · subst h; exact ⟨rfl, rfl, rfl⟩
        · exact ihw a h

theorem healthPhase_acts (env : Env) (p : OnboardParams) (ctx : Ctx) (tick : Nat) :
    ∀ a ∈ (healthPhase env p ctx tick).2.1,
      a.isSpawn = false ∧ a.isProvisioning = false ∧ a.isWriteEnv = false := by
  intro a ha
  have hwl := waitLoop_acts env
    (trimEndSlashes (if (trimEndSlashes (trimS (p.api_base_url.getD ""))).data.isEmpty = true
      then "http://127.0.0.1:" ++ natStr ctx.apiPort
      else trimEndSlashes (trimS (p.api_base_url.getD ""))) ++ "/health")
    healthFuel 0 tick ""
  simp only [healthPhase] at ha
  split at ha
  · rcases List.mem_cons.mp ha with h | h
    · subst h; exact ⟨rfl, rfl, rfl⟩
    · exact hwl a h
  · rcases List.mem_cons.mp ha with h | h
    · subst h; exact ⟨rfl, rfl, rfl⟩
    · rcases List.mem_append.mp h with h | h
      · exact hwl a h
      · simp at h
        subst h
        exact ⟨rfl, rfl, rfl⟩

theorem deviceLoop_acts (env : Env) (cid cname : String) (bid bname : Option String)
    (pfx : String) :
    ∀ fuel i tick devs, ∀ a ∈ (deviceLoop env cid cname bid bname pfx fuel i tick devs).2.1,
      a.isSpawn = false ∧ a.isHealthGet = false ∧ a.isWriteEnv = false := by
  intro fuel
  induction fuel with
  | zero => intro i tick devs a ha; simp [deviceLoop] at ha
  | succ fuel ih =>
    intro i tick devs a ha
    simp only [deviceLoop] at ha
    split at ha
    · simp at ha
    · split at ha
      · simp at ha
        subst ha
        exact ⟨rfl, rfl, rfl⟩
      · split at ha
        · simp at ha
          subst ha
          exact ⟨rfl, rfl, rfl⟩
        · rcases List.mem_cons.mp ha with h | h
          · subst h; exact ⟨rfl, rfl, rfl⟩
          rcases List.mem_cons.mp h with h | h
          · subst h; exact ⟨rfl, rfl, rfl⟩
          · exact ih _ _ _ a h

theorem companyLoop_acts (env : Env) (requested : List String) (count : Nat) :
    ∀ cs tick devs, ∀ a ∈ (companyLoop env requested count cs tick devs).2.1,
      a.isSpawn = false ∧ a.isHealthGet = false ∧ a.isWriteEnv = false := by
  intro cs
  induction cs with
  | nil => intro tick devs a ha; simp [companyLoop] at ha
  | cons c rest ih =>
    intro tick devs a ha
    simp only [companyLoop] at ha
    split at ha
    · simp at ha
    · split at ha
      · exact ih _ _ a ha
      · split at ha
        · exact ih _ _ a ha
        · split at ha
          · simp at ha
            subst ha
            exact ⟨rfl, rfl, rfl⟩
          · split at ha
            · rcases List.mem_append.mp ha with h | h
              · simp at h
                rcases h with h | h <;> subst h <;> exact ⟨rfl, rfl, rfl⟩
              · exact deviceLoop_acts env _ _ _ _ _ count 1 _ devs a h
            · rcases List.mem_append.mp ha with h | h
              · rcases List.mem_append.mp h with h | h
                · simp at h
                  rcases h with h | h <;> subst h <;> exact ⟨rfl, rfl, rfl⟩
                · exact deviceLoop_acts env _ _ _ _ _ count 1 _ devs a h
              · exact ih _ _ a h

theorem provisionPhase_acts (env : Env) (p : OnboardParams) (ctx : Ctx) (tick : Nat) :
    ∀ a ∈ (provisionPhase env p ctx tick).2.1,
      a.isSpawn = false ∧ a.isHealthGet = false ∧ a.isWriteEnv = false := by
  intro a ha
  have hpre : ∀ b ∈ [Action.log "Authenticating admin...",
      Action.loginCall ctx.adminEmail ctx.adminPassword],
      b.isSpawn = false ∧ b.isHealthGet = false ∧ b.isWriteEnv = false := by
    intro b hb
    simp at hb
    rcases hb with hb | hb <;> subst hb <;> exact ⟨rfl, rfl, rfl⟩
  simp only [provisionPhase] at ha
  split at ha
  · simp at ha
    subst ha
    exact ⟨rfl, rfl, rfl⟩
  · split at ha
    · exact hpre a ha
    · split at ha
      · exact hpre a ha
      · split at ha
        · exact hpre a ha
        · split at ha
          · simp at ha
            rcases ha with ha | ha | ha
            · subst ha; exact ⟨rfl, rfl, rfl⟩
            · subst ha; exact ⟨rfl, rfl, rfl⟩
            · subst ha; exact ⟨rfl, rfl, rfl⟩
          · split at ha
            · simp at ha
              rcases ha with ha | ha | ha
              · subst ha; exact ⟨rfl, rfl, rfl⟩
              · subst ha; exact ⟨rfl, rfl, rfl⟩
              · subst ha; exact ⟨rfl, rfl, rfl⟩
            · rcases List.mem_append.mp ha with h | h
              · simp at h
                rcases h with hb | hb <;> subst hb <;> exact ⟨rfl, rfl, rfl⟩
              · rcases List.mem_cons.mp h with h | h
                · subst h; exact ⟨rfl, rfl, rfl⟩
                · exact companyLoop_acts env _ _ _ tick [] a h

theorem packLoop_acts (env : Env) (outDir : String) :
    ∀ devs fsIdx, ∀ a ∈ (packLoop env outDir devs fsIdx).2.1,
      ∃ pth, a = Action.fsWrite pth := by
  intro devs
  induction devs with
  | nil => intro fsIdx a ha; simp [packLoop] at ha
  | cons d rest ih =>
    intro fsIdx a ha
    simp only [packLoop] at ha
    split at ha
    · simp at ha
      subst ha
      exact ⟨_, rfl⟩
    · rcases List.mem_cons.mp ha with h | h
      · subst h; exact ⟨_, rfl⟩
      · exact ih _ a h

theorem artifactPhase_acts (env : Env) (ctx : Ctx) (devices : List DeviceRec) :
    ∀ a ∈ (artifactPhase env ctx devices).2,
      a.isSpawn = false ∧ a.isProvisioning = false ∧ a.isHealthGet = false ∧
        a.isWriteEnv = false := by
  intro a ha
  have hfs : ∀ pth, (Action.fsWrite pth).isSpawn = false ∧
      (Action.fsWrite pth).isProvisioning = false ∧
      (Action.fsWrite pth).isHealthGet = false ∧
      (Action.fsWrite pth).isWriteEnv = false := fun _ => ⟨rfl, rfl, rfl, rfl⟩
  have hlog : ∀ l, (Action.log l).isSpawn = false ∧
      (Action.log l).isProvisioning = false ∧
      (Action.log l).isHealthGet = false ∧
      (Action.log l).isWriteEnv = false := fun _ => ⟨rfl, rfl, rfl, rfl⟩
  simp only [artifactPhase] at ha
  split at ha
  · simp at ha
  · split at ha
    · simp at ha
      subst ha
      exact hfs _
    · split at ha
      · rename_i e acts x heq
        rcases List.mem_cons.mp ha with h | h
        · subst h; exact hfs _
        · obtain ⟨pth, rfl⟩ := packLoop_acts env _ devices 1 a (by rw [heq]; exact h)
          exact hfs _
      · rename_i u acts fsIdx heq
        split at ha
        · rcases List.mem_cons.mp ha with h | h
          · subst h; exact hfs _
          rcases List.mem_append.mp h with h | h
          · obtain ⟨pth, rfl⟩ := packLoop_acts env _ devices 1 a (by rw [heq]; exact h)
            exact hfs _
          · simp at h
            subst h
            exact hfs _
        · split at ha
          · rcases List.mem_cons.mp ha with h | h
            · subst h; exact hfs _
            rcases List.mem_append.mp h with h | h
            · obtain ⟨pth, rfl⟩ := packLoop_acts env _ devices 1 a (by rw [heq]; exact h)
              exact hfs _
            · simp at h
              rcases h with h | h <;> subst h <;> exact hfs _
          · split at ha
            · rcases List.mem_cons.mp ha with h | h
              · subst h; exact hfs _
              rcases List.mem_append.mp h with h | h
              · obtain ⟨pth, rfl⟩ := packLoop_acts env _ devices 1 a (by rw [heq]; exact h)
                exact hfs _
              · simp at h
                rcases h with h | h | h <;> subst h <;> exact hfs _
            · rcases List.mem_cons.mp ha with h | h
              · subst h; exact hfs _
              rcases List.mem_append.mp h with h | h
              · obtain ⟨pth, rfl⟩ := packLoop_acts env _ devices 1 a (by rw [heq]; exact h)
                exact hfs _
              · simp at h
                rcases h with h | h | h | h <;> subst h
                · exact hfs _
                · exact hfs _
                · exact hfs _
                · exact hlog _

theorem hardenPhase_acts (env : Env) (ctx : Ctx) (tick : Nat) :
    ∀ a ∈ (hardenPhase env ctx tick).2.1,
      a.isProvisioning = false ∧ a.isHealthGet = false ∧
        (ctx.skipStart = true → a.isSpawn = false) := by
  intro a ha
  simp only [hardenPhase] at ha
  split at ha
  · split at ha
    · simp at ha
      subst ha
      exact ⟨rfl, rfl, fun _ => rfl⟩
    · split at ha
      · next hss =>
        have hsf : ctx.skipStart = false := by simpa using hss
        have hrcs := runCmdStream_acts env 1 "docker compose up (refresh)" tick
        rcases List.mem_append.mp ha with h | h
        · simp at h
          rcases h with h | h <;> subst h <;> exact ⟨rfl, rfl, fun _ => rfl⟩
        · rcases List.mem_cons.mp h with h | h
          · subst h; exact ⟨rfl, rfl, fun _ => rfl⟩
          · refine ⟨(hrcs a h).1, (hrcs a h).2.1, fun hsk => ?_⟩
            rw [hsf] at hsk
            exact absurd hsk (by simp)
      · simp at ha
        rcases ha with ha | ha <;> subst ha <;> exact ⟨rfl, rfl, fun _ => rfl⟩
  · simp at ha

theorem finishPhase_acts (env : Env) (ctx : Ctx) (tick : Nat) :
    ∀ a ∈ (finishPhase env ctx tick).2.1, ∃ l, a = Action.log l := by
  intro a ha
  have hacts : a ∈ [Action.log "", Action.log "Onboarding complete.",
      Action.log ("- Edge API URL for POS: " ++ ctx.edgeUrl)] ++
    (if ctx.syncEnabled then [Action.log ("- Edge->Cloud sync target: " ++ ctx.cloudUrl)]
      else [Action.log "- Edge->Cloud sync: disabled"]) ++
    (if ctx.generatedPwd then
      [Action.log "- Bootstrap admin password was auto-generated for this run:",
        Action.log ("  " ++ ctx.adminPassword)]
      else []) := by
    simp only [finishPhase] at ha
    split at ha <;> exact ha
  rcases List.mem_append.mp hacts with h | h
  · rcases List.mem_append.mp h with h | h
    · simp at h
      rcases h with h | h | h <;> subst h <;> exact ⟨_, rfl⟩
    · split at h <;> simp at h
      · subst h; exact ⟨_, rfl⟩
      · subst h; exact ⟨_, rfl⟩
  · split at h <;> simp at h
    · rcases h with h | h <;> subst h <;> exact ⟨_, rfl⟩

/-! ### Run-level trace structure -/

theorem resolveCtx_skipStart (env : Env) (p : OnboardParams) (ctx : Ctx)
    (h : resolveCtx env p = .ok ctx) :
    ctx.skipStart = decide (lowerS (trimS p.mode) = "pos") := by
  simp only [resolveCtx] at h
  split at h
  · cases h
  · split at h
    · cases h
    · rw [Except.ok.injEq] at h
      subst h
      rfl

/-- Every action of a run's trace comes from one of its phases. -/
theorem run_acts_cases (env : Env) (p : OnboardParams) (a : Action)
    (ha : a ∈ (runOnboardingInternal env p).2) :
    a ∈ (bundlePhase env p).2 ∨
    (∃ ctx, resolveCtx env p = .ok ctx ∧
      (a ∈ (writePhase env ctx).2 ∨ a ∈ (stackPhase env ctx 0).2.1 ∨
       (∃ t1, a ∈ (healthPhase env p ctx t1).2.1) ∨
       (∃ t2, a ∈ (provisionPhase env p ctx t2).2.1) ∨
       (∃ devs, a ∈ (artifactPhase env ctx devs).2) ∨
       (∃ t3, a ∈ (hardenPhase env ctx t3).2.1) ∨
       (∃ t4, a ∈ (finishPhase env ctx t4).2.1))) := by
  rcases hbp : bundlePhase env p with ⟨rb, bacts⟩
  cases rb with
  | error e =>
    simp only [runOnboardingInternal, hbp] at ha
    exact Or.inl ha
  | ok u =>
    cases hres : resolveCtx env p with
    | error e =>
      simp only [runOnboardingInternal, hbp, hres] at ha
      exact Or.inl ha
    | ok ctx =>
      refine Or.imp_right (fun h => ⟨ctx, rfl, h⟩) ?_
      rcases hwp : writePhase env ctx with ⟨rw1, wacts⟩
      cases rw1 with
      | error e =>
        simp only [runOnboardingInternal, hbp, hres, hwp] at ha
        rcases List.mem_append.mp ha with h | h
        · exact Or.inl h
        · exact Or.inr (Or.inl h)
      | ok u1 =>
        rcases hsp : stackPhase env ctx 0 with ⟨rs, sacts, t1⟩
        cases rs with
        | error e =>
          simp only [runOnboardingInternal, hbp, hres, hwp, hsp] at ha
          rcases List.mem_append.mp ha with h | h
          · rcases List.mem_append.mp h with h | h
            · exact Or.inl h
            · exact Or.inr (Or.inl h)
          · exact Or.inr (Or.inr (Or.inl h))
        | ok u2 =>
          rcases hhp : healthPhase env p ctx t1 with ⟨rh, hacts, t2⟩
          have hmh : a ∈ hacts → ∃ t, a ∈ (healthPhase env p ctx t).2.1 := by
            intro h
            exact ⟨t1, by rw [hhp]; exact h⟩
          cases rh with
          | error e =>
            simp only [runOnboardingInternal, hbp, hres, hwp, hsp, hhp] at ha
            rcases List.mem_append.mp ha with h | h
            · rcases List.mem_append.mp h with h | h
              · rcases List.mem_append.mp h with h | h
                · exact Or.inl h
                · exact Or.inr (Or.inl h)
              · exact Or.inr (Or.inr (Or.inl h))
            · exact Or.inr (Or.inr (Or.inr (Or.inl (hmh h))))
          | ok u3 =>
            rcases hpp : provisionPhase env p ctx t2 with ⟨rp, pacts, t3, devs⟩
            have hmp : a ∈ pacts → ∃ t, a ∈ (provisionPhase env p ctx t).2.1 := by
              intro h
              exact ⟨t2, by rw [hpp]; exact h⟩
            cases rp with
            | error e =>
              simp only [runOnboardingInternal, hbp, hres, hwp, hsp, hhp, hpp] at ha
              rcases List.mem_append.mp ha with h | h
              · rcases List.mem_append.mp h with h | h
                · rcases List.mem_append.mp h with h | h
                  · rcases List.mem_append.mp h with h | h
                    · exact Or.inl h
                    · exact Or.inr (Or.inl h)
                  · exact Or.inr (Or.inr (Or.inl h))
                · exact Or.inr (Or.inr (Or.inr (Or.inl (hmh h))))
              · exact Or.inr (Or.inr (Or.inr (Or.inr (Or.inl (hmp h)))))
            | ok u4 =>
              rcases hap : artifactPhase env ctx devs with ⟨ra, aacts⟩
              have hma : a ∈ aacts → ∃ ds, a ∈ (artifactPhase env ctx ds).2 := by
                intro h
                exact ⟨devs, by rw [hap]; exact h⟩
              cases ra with
              | error e =>
                simp only [runOnboardingInternal, hbp, hres, hwp, hsp, hhp, hpp, hap] at ha
                rcases List.mem_append.mp ha with h | h
                · rcases List.mem_append.mp h with h | h
                  · rcases List.mem_append.mp h with h | h
                    · rcases List.mem_append.mp h with h | h
                      · rcases List.mem_append.mp h with h | h
                        · exact Or.inl h
                        · exact Or.inr (Or.inl h)
                      · exact Or.inr (Or.inr (Or.inl h))
                    · exact Or.inr (Or.inr (Or.inr (Or.inl (hmh h))))
                  · exact Or.inr (Or.inr (Or.inr (Or.inr (Or.inl (hmp h)))))
                · exact Or.inr (Or.inr (Or.inr (Or.inr (Or.inr (Or.inl (hma h))))))
              | ok u5 =>
                rcases hdp : hardenPhase env ctx t3 with ⟨rd, dacts, t4⟩
                have hmd : a ∈ dacts → ∃ t, a ∈ (hardenPhase env ctx t).2.1 := by
                  intro h
                  exact ⟨t3, by rw [hdp]; exact h⟩
                cases rd with
                | error e =>
                  simp only [runOnboardingInternal, hbp, hres, hwp, hsp, hhp, hpp, hap, hdp] at ha
                  rcases List.mem_append.mp ha with h | h
                  · rcases List.mem_append.mp h with h | h
                    · rcases List.mem_append.mp h with h | h
                      · rcases List.mem_append.mp h with h | h
                        · rcases List.mem_append.mp h with h | h
                          · rcases List.mem_append.mp h with h | h
                            · exact Or.inl h
                            · exact Or.inr (Or.inl h)
                          · exact Or.inr (Or.inr (Or.inl h))
                        · exact Or.inr (Or.inr (Or.inr (Or.inl (hmh h))))
                      · exact Or.inr (Or.inr (Or.inr (Or.inr (Or.inl (hmp h)))))
                    · exact Or.inr (Or.inr (Or.inr (Or.inr (Or.inr (Or.inl (hma h))))))
                  · exact Or.inr (Or.inr (Or.inr (Or.inr (Or.inr (Or.inr (Or.inl (hmd h)))))))
                | ok u6 =>
                  rcases hfp : finishPhase env ctx t4 with ⟨rf, facts, t5⟩
                  have hmf : a ∈ facts → ∃ t, a ∈ (finishPhase env ctx t).2.1 := by
                    intro h
                    exact ⟨t4, by rw [hfp]; exact h⟩
                  simp only [runOnboardingInternal, hbp, hres, hwp, hsp, hhp, hpp, hap, hdp,
                    hfp] at ha
                  rcases List.mem_append.mp ha with h | h
                  · rcases List.mem_append.mp h with h | h
                    · rcases List.mem_append.mp h with h | h
                      · rcases List.mem_append.mp h with h | h
                        · rcases List.mem_append.mp h with h | h
                          · rcases List.mem_append.mp h with h | h
                            · rcases List.mem_append.mp h with h | h
                              · exact Or.inl h
                              · exact Or.inr (Or.inl h)
                            · exact Or.inr (Or.inr (Or.inl h))
                          · exact Or.inr (Or.inr (Or.inr (Or.inl (hmh h))))
                        · exact Or.inr (Or.inr (Or.inr (Or.inr (Or.inl (hmp h)))))
                      · exact Or.inr (Or.inr (Or.inr (Or.inr (Or.inr (Or.inl (hma h))))))
                    · exact Or.inr (Or.inr (Or.inr (Or.inr (Or.inr (Or.inr (Or.inl (hmd h)))))))
                  · exact Or.inr (Or.inr (Or.inr (Or.inr (Or.inr (Or.inr (Or.inr (hmf h)))))))

/-- In POS mode no branch of the run ever spawns a process. -/
theorem run_pos_no_spawn (env : Env) (p : OnboardParams)
    (hmode : lowerS (trimS p.mode) = "pos") :
    ∀ a ∈ (runOnboardingInternal env p).2, a.isSpawn = false := by
  intro a ha
  rcases run_acts_cases env p a ha with h | ⟨ctx, hres, h⟩
  · rw [bundlePhase_acts env p a h]
    rfl
  · have hss : ctx.skipStart = true := by
      rw [resolveCtx_skipStart env p ctx hres, hmode]
      rfl
    rcases h with h | h | ⟨t1, h⟩ | ⟨t2, h⟩ | ⟨devs, h⟩ | ⟨t3, h⟩ | ⟨t4, h⟩
    · exact (writePhase_acts env ctx a h).1
    · exact stackPhase_skip_no_spawn env ctx 0 hss a h
    · exact (healthPhase_acts env p ctx t1 a h).1
    · exact (provisionPhase_acts env p ctx t2 a h).1
    · exact (artifactPhase_acts env ctx devs a h).1
    · exact (hardenPhase_acts env ctx t3 a h).2.2 hss
    · obtain ⟨l, rfl⟩ := finishPhase_acts env ctx t4 a h
      rfl

/-- When the stop flag reads false at a checkpoint, the wait loop issues its
next poll. -/
theorem waitLoop_first_get (env : Env) (url : String) (fuel k tick : Nat)
    (lastErr : String) (hs : env.stop tick = false) :
    Action.healthGet url ∈ (waitLoop env url (fuel + 1) k tick lastErr).2.1 := by
  simp only [waitLoop, hs]
  rw [if_neg (by simp)]
  split
  · simp
  · simp

/-- The first poll target of the health phase is a member of its trace. -/
theorem healthPhase_first_get (env : Env) (p : OnboardParams) (ctx : Ctx) (tick : Nat)
    (hs : env.stop tick = false) :
    Action.healthGet (trimEndSlashes
      (if (trimEndSlashes (trimS (p.api_base_url.getD ""))).data.isEmpty = true
        then "http://127.0.0.1:" ++ natStr ctx.apiPort
        else trimEndSlashes (trimS (p.api_base_url.getD ""))) ++ "/health")
      ∈ (healthPhase env p ctx tick).2.1 := by
  have hw := waitLoop_first_get env
    (trimEndSlashes (if (trimEndSlashes (trimS (p.api_base_url.getD ""))).data.isEmpty = true
      then "http://127.0.0.1:" ++ natStr ctx.apiPort
      else trimEndSlashes (trimS (p.api_base_url.getD ""))) ++ "/health")
    149 0 tick "" hs
  simp only [healthPhase]
  split
  · exact List.mem_cons_of_mem _ hw
  · refine List.mem_cons_of_mem _ ?_
    exact List.mem_append_left _ hw

/-- The whole-run trace when the bundled-assets, config and stack phases
succeed: the health-phase actions are a segment of the trace. -/
theorem run_trace_decomp (env : Env) (p : OnboardParams) (ctx : Ctx)
    (bacts wacts sacts : List Action) (t1 : Nat)
    (hb : bundlePhase env p = (.ok (), bacts))
    (hres : resolveCtx env p = .ok ctx)
    (hw : writePhase env ctx = (.ok (), wacts))
    (hs : stackPhase env ctx 0 = (.ok (), sacts, t1)) :
    ∃ rest, (runOnboardingInternal env p).2 =
      bacts ++ wacts ++ sacts ++ (healthPhase env p ctx t1).2.1 ++ rest := by
  rcases hh : healthPhase env p ctx t1 with ⟨r, hacts, t2⟩
  cases r with
  | error e =>
    simp only [runOnboardingInternal, hb, hres, hw, hs, hh]
    exact ⟨[], by simp⟩
  | ok u =>
    rcases hp : provisionPhase env p ctx t2 with ⟨r2, pacts, t3, devs⟩
    cases r2 with
    | error e =>
      simp only [runOnboardingInternal, hb, hres, hw, hs, hh, hp]
      exact ⟨pacts, by simp⟩
    | ok u2 =>
      rcases hart : artifactPhase env ctx devs with ⟨r3, aacts⟩
      cases r3 with
      | error e =>
        simp only [runOnboardingInternal, hb, hres, hw, hs, hh, hp, hart]
        exact ⟨pacts ++ aacts, by simp⟩
      | ok u3 =>
        rcases hh2 : hardenPhase env ctx t3 with ⟨r4, dacts, t4⟩
        cases r4 with
        | error e =>
          simp only [runOnboardingInternal, hb, hres, hw, hs, hh, hp, hart, hh2]
          exact ⟨pacts ++ aacts ++ dacts, by simp⟩
        | ok u4 =>
          rcases hf : finishPhase env ctx t4 with ⟨r5, facts, t5⟩
          simp only [runOnboardingInternal, hb, hres, hw, hs, hh, hp, hart, hh2, hf]
          exact ⟨pacts ++ aacts ++ dacts ++ facts, by simp⟩

/-- The whole run, when the health wait fails: its error is the run's error
and the trace ends with the health-phase actions. -/
theorem run_trace_health_err (env : Env) (p : OnboardParams) (ctx : Ctx)
    (bacts wacts sacts : List Action) (t1 : Nat) (e : String)
    (hb : bundlePhase env p = (.ok (), bacts))
    (hres : resolveCtx env p = .ok ctx)
    (hw : writePhase env ctx = (.ok (), wacts))
    (hs : stackPhase env ctx 0 = (.ok (), sacts, t1))
    (hh : (healthPhase env p ctx t1).1 = .error e) :
    runOnboardingInternal env p =
      (.error e, bacts ++ wacts ++ sacts ++ (healthPhase env p ctx t1).2.1) := by
  rcases hhp : healthPhase env p ctx t1 with ⟨r, hacts, t2⟩
  rw [hhp] at hh
  simp only at hh
  subst hh
  simp only [runOnboardingInternal, hb, hres, hw, hs, hhp]

/-- Behaviour of the wait loop when the stop flag becomes set at checkpoint
`t0` and the API never reports healthy: the loop ends `Stopped.` and has
polled exactly once per checkpoint before `t0` — no poll happens at or
after the checkpoint at which the flag is seen. -/
theorem waitLoop_stopAt (env : Env) (url : String) (t0 : Nat)
    (hstop : env.stop = stopAt t0)
    (hnh : ∀ k, healthOk (env.health k) = false) :
    ∀ fuel k tick lastErr, tick ≤ t0 → t0 < tick + fuel →
      (waitLoop env url fuel k tick lastErr).1 = .error "Stopped." ∧
      (waitLoop env url fuel k tick lastErr).2.1.countP (fun a => a.isHealthGet) =
        t0 - tick := by
  intro fuel
  induction fuel with
  | zero =>
    intro k tick lastErr h1 h2
    omega
  | succ fuel ih =>
    intro k tick lastErr h1 h2
    by_cases he : tick = t0
    · subst he
      have hs : env.stop tick = true := by
        rw [hstop]
        simp [stopAt]
      have hw : waitLoop env url (fuel + 1) k tick lastErr =
          (.error "Stopped.", [], tick + 1) := by
        simp only [waitLoop, hs]
        simp
      rw [hw]
      refine ⟨rfl, ?_⟩
      simp
    · have hs : env.stop tick = false := by
        rw [hstop]
        simp only [stopAt, decide_eq_false_iff_not]
        omega
      obtain ⟨ih1, ih2⟩ := ih (k + 1) (tick + 1) (healthErrText (env.health k))
        (by omega) (by omega)
      have hres : (waitLoop env url (fuel + 1) k tick lastErr).1 =
            (waitLoop env url fuel (k + 1) (tick + 1) (healthErrText (env.health k))).1 ∧
          (waitLoop env url (fuel + 1) k tick lastErr).2.1 =
            Action.healthGet url :: Action.log ("Waiting for API health... (" ++
              healthErrText (env.health k) ++ ")") ::
              (waitLoop env url fuel (k + 1) (tick + 1) (healthErrText (env.health k))).2.1 := by
        simp only [waitLoop, hs, hnh k]
        rw [if_neg (by simp), if_neg (by simp)]
        exact ⟨rfl, rfl⟩
      refine ⟨by rw [hres.1, ih1], ?_⟩
      rw [hres.2, List.countP_cons_of_pos _ _ (by rfl),
        List.countP_cons_of_neg _ _ (by simp [Action.isHealthGet]), ih2]
      omega

/-- The health phase under a stop request set at checkpoint `t0`. -/
theorem healthPhase_stopAt (env : Env) (p : OnboardParams) (ctx : Ctx) (t0 t1 : Nat)
    (hstop : env.stop = stopAt t0)
    (hnh : ∀ k, healthOk (env.health k) = false)
    (h1 : t1 ≤ t0) (h2 : t0 < t1 + healthFuel) :
    (healthPhase env p ctx t1).1 = .error "Stopped." ∧
    (healthPhase env p ctx t1).2.1.countP (fun a => a.isHealthGet) = t0 - t1 := by
  obtain ⟨hw1, hw2⟩ := waitLoop_stopAt env
    (trimEndSlashes (if (trimEndSlashes (trimS (p.api_base_url.getD ""))).data.isEmpty = true
      then "http://127.0.0.1:" ++ natStr ctx.apiPort
      else trimEndSlashes (trimS (p.api_base_url.getD ""))) ++ "/health")
    t0 hstop hnh healthFuel 0 t1 "" h1 h2
  rcases hwl : waitLoop env
    (trimEndSlashes (if (trimEndSlashes (trimS (p.api_base_url.getD ""))).data.isEmpty = true
      then "http://127.0.0.1:" ++ natStr ctx.apiPort
      else trimEndSlashes (trimS (p.api_base_url.getD ""))) ++ "/health")
    healthFuel 0 t1 "" with ⟨r, wacts, t2⟩
  rw [hwl] at hw1 hw2
  simp only at hw1
  subst hw1
  simp only [healthPhase, hwl]
  refine ⟨by trivial, ?_⟩
  rw [List.countP_cons_of_neg _ _ (by simp [Action.isHealthGet])]
  exact hw2

/-! ### Claim C6 -/

/-- C6: the wait loop checks the stop flag before every retry and aborts at
once when it is set; for any run whose stop flag becomes set at checkpoint
`t0` while the loop is polling a never-healthy API, the run terminates with
`Stopped.`, exactly `t0 - t1` polls have happened (none after the flag was
seen — within one polling interval), and no provisioning call occurs
anywhere in the run's trace. -/
theorem C6_stop_during_health_wait (env : Env) (p : OnboardParams) (ctx : Ctx)
    (bacts wacts sacts : List Action) (t0 t1 : Nat)
    (hstop : env.stop = stopAt t0)
    (hnh : ∀ k, healthOk (env.health k) = false)
    (hb : bundlePhase env p = (.ok (), bacts))
    (hres : resolveCtx env p = .ok ctx)
    (hw : writePhase env ctx = (.ok (), wacts))
    (hs : stackPhase env ctx 0 = (.ok (), sacts, t1))
    (h1 : t1 ≤ t0) (h2 : t0 < t1 + healthFuel) :
    (runOnboardingInternal env p).1 = .error "Stopped." ∧
    (runOnboardingInternal env p).2.countP (fun a => a.isProvisioning) = 0 ∧
    (runOnboardingInternal env p).2.countP (fun a => a.isHealthGet) = t0 - t1 ∧
    (∀ env' url fuel k tick lastErr, env'.stop tick = true →
      waitLoop env' url (fuel + 1) k tick lastErr = (.error "Stopped.", [], tick + 1)) := by
  obtain ⟨hh1, hh2⟩ := healthPhase_stopAt env p ctx t0 t1 hstop hnh h1 h2
  have hrun := run_trace_health_err env p ctx bacts wacts sacts t1 "Stopped." hb hres hw hs hh1
  have hbacts : ∀ a ∈ bacts, a = Action.ensureBundle := by
    have h := bundlePhase_acts env p
    rw [hb] at h
    exact h
  have hwacts : ∀ a ∈ wacts, a.isSpawn = false ∧ a.isProvisioning = false ∧
      a.isHealthGet = false := by
    have h := writePhase_acts env ctx
    rw [hw] at h
    exact h
  have hsacts : ∀ a ∈ sacts, a.isProvisioning = false ∧ a.isHealthGet = false ∧
      a.isWriteEnv = false := by
    have h := stackPhase_acts env ctx 0
    rw [hs] at h
    exact h
  refine ⟨by rw [hrun], ?_, ?_, ?_⟩
  · rw [hrun]
    simp only [List.countP_append]
    have z1 : bacts.countP (fun a => a.isProvisioning) = 0 := by
      rw [List.countP_eq_zero]
      intro a ha
      rw [hbacts a ha]
      simp [Action.isProvisioning]
    have z2 : wacts.countP (fun a => a.isProvisioning) = 0 := by
      rw [List.countP_eq_zero]
      intro a ha
      simp [(hwacts a ha).2.1]
    have z3 : sacts.countP (fun a => a.isProvisioning) = 0 := by
      rw [List.countP_eq_zero]
      intro a ha
      simp [(hsacts a ha).1]
    have z4 : (healthPhase env p ctx t1).2.1.countP (fun a => a.isProvisioning) = 0 := by
      rw [List.countP_eq_zero]
      intro a ha
      simp [(healthPhase_acts env p ctx t1 a ha).2.1]
    omega
  · rw [hrun]
    simp only [List.countP_append]
    have z1 : bacts.countP (fun a => a.isHealthGet) = 0 := by
      rw [List.countP_eq_zero]
      intro a ha
      rw [hbacts a ha]
      simp [Action.isHealthGet]
    have z2 : wacts.countP (fun a => a.isHealthGet) = 0 := by
      rw [List.countP_eq_zero]
      intro a ha
      simp [(hwacts a ha).2.2]
    have z3 : sacts.countP (fun a => a.isHealthGet) = 0 := by
      rw [List.countP_eq_zero]
      intro a ha
      simp [(hsacts a ha).2.1]
    omega
  · intro env' url fuel k tick lastErr hstp
    simp only [waitLoop, hstp]
    simp

/-- C6 witness: a concrete POS-mode run whose API never answers and whose
stop flag is set at checkpoint 3: the run ends `Stopped.` after exactly 3
polls and its trace contains no provisioning call. -/
theorem C6_stop_during_health_wait_witness :
    (runOnboardingInternal envStopDuringWait pPos).1 = .error "Stopped." ∧
    (runOnboardingInternal envStopDuringWait pPos).2.countP
      (fun a => a.isProvisioning) = 0 ∧
    (runOnboardingInternal envStopDuringWait pPos).2.countP
      (fun a => a.isHealthGet) = 3 :=
  have h := C6_stop_during_health_wait envStopDuringWait pPos ctxStopWait
    (bundlePhase envStopDuringWait pPos).2
    (writePhase envStopDuringWait ctxStopWait).2
    (stackPhase envStopDuringWait ctxStopWait 0).2.1
    3 (stackPhase envStopDuringWait ctxStopWait 0).2.2
    rfl (fun _ => rfl) rfl rfl rfl rfl (by decide) (by decide)
  ⟨h.1, h.2.1, h.2.2.1⟩

/-! ### Claim C2 (corrected) -/

/-- C2 counterexample: a request with mode `pos` and no `apiBaseUrl` does
not fail with a configuration error — here it runs to successful
completion, polling `http://127.0.0.1:8001/health` and provisioning over
HTTP, spawning no process. -/
theorem C2_pos_counterexample :
    (runOnboardingInternal envOk pPos).1 = .ok () ∧
    Action.healthGet (trimEndSlashes ("http://127.0.0.1:" ++ natStr 8001) ++ "/health")
      ∈ (runOnboardingInternal envOk pPos).2 ∧
    Action.listCompanies ∈ (runOnboardingInternal envOk pPos).2 ∧
    ∀ a ∈ (runOnboardingInternal envOk pPos).2, a.isSpawn = false := by
  exact ⟨rfl, by decide, by decide, by decide⟩

/-- C2 amended: in `pos` mode no process is ever spawned, and a request
with no `apiBaseUrl` does not fail with a configuration error: the
provisioning base URL falls back to `http://127.0.0.1:{api_port}` and its
health endpoint is polled. -/
theorem C2_pos_no_spawn_localhost (env : Env) (p : OnboardParams) (ctx : Ctx)
    (bacts wacts sacts : List Action) (t1 : Nat)
    (hmode : lowerS (trimS p.mode) = "pos")
    (hapi : (trimEndSlashes (trimS (p.api_base_url.getD ""))).data = [])
    (hb : bundlePhase env p = (.ok (), bacts))
    (hres : resolveCtx env p = .ok ctx)
    (hw : writePhase env ctx = (.ok (), wacts))
    (hs : stackPhase env ctx 0 = (.ok (), sacts, t1))
    (hstop : env.stop t1 = false) :
    (∀ a ∈ (runOnboardingInternal env p).2, a.isSpawn = false) ∧
    Action.healthGet (trimEndSlashes ("http://127.0.0.1:" ++ natStr ctx.apiPort) ++ "/health")
      ∈ (runOnboardingInternal env p).2 := by
  refine ⟨run_pos_no_spawn env p hmode, ?_⟩
  obtain ⟨rest, hdec⟩ := run_trace_decomp env p ctx bacts wacts sacts t1 hb hres hw hs
  rw [hdec]
  have hmem := healthPhase_first_get env p ctx t1 hstop
  rw [hapi] at hmem
  simp only [List.isEmpty_nil, if_pos] at hmem
  exact List.mem_append_left _ (List.mem_append_right _ hmem)

/-- C2 witness: the amended theorem evaluated on the concrete healthy
oracle and the POS-mode request with no `apiBaseUrl`. -/
theorem C2_pos_no_spawn_localhost_witness :
    (∀ a ∈ (runOnboardingInternal envOk pPos).2, a.isSpawn = false) ∧
    Action.healthGet (trimEndSlashes ("http://127.0.0.1:" ++ natStr ctxPos.apiPort) ++ "/health")
      ∈ (runOnboardingInternal envOk pPos).2 :=
  C2_pos_no_spawn_localhost envOk pPos ctxPos
    (bundlePhase envOk pPos).2
    (writePhase envOk ctxPos).2
    (stackPhase envOk ctxPos 0).2.1
    (stackPhase envOk ctxPos 0).2.2
    rfl rfl rfl rfl rfl rfl rfl

/-! ### Claim C5 -/

/-- C5: for every tenant name and device sequence number the device code is
`PREFIX ++ "-POS-" ++ NN` where the prefix is at most 14 characters, all
uppercase alphanumeric or hyphen with hyphen runs collapsed and no leading
hyphen (a trailing hyphen can only arise from truncation), `POS` when the
name contains no alphanumerics, and `NN` is zero-padded to at least two
digits; codes with distinct sequence numbers are distinct. -/
theorem deviceCodePfx_eq (name : String) :
    deviceCodePfx name =
      (if (trimDash ((name.data.foldl cleanRev []).reverse)).isEmpty = true then "POS"
        else String.mk ((trimDash ((name.data.foldl cleanRev []).reverse)).take 14)) := rfl

theorem C5_device_code_format (name : String) (i j : Nat) :
    (deviceCode (deviceCodePfx name) i = deviceCodePfx name ++ "-POS-" ++ pad2 i) ∧
    (deviceCodePfx name).data.length ≤ 14 ∧
    (∀ c ∈ (deviceCodePfx name).data, goodChar c) ∧
    (deviceCodePfx name).data ≠ [] ∧
    (deviceCodePfx name).data.head? ≠ some '-' ∧
    List.Chain' noDD (deviceCodePfx name).data ∧
    ((trimDash ((name.data.foldl cleanRev []).reverse)).length ≤ 14 →
      (deviceCodePfx name).data.getLast? ≠ some '-') ∧
    ((∀ c ∈ name.data, c.isAlphanum = false) → deviceCodePfx name = "POS") ∧
    2 ≤ (pad2 i).data.length ∧
    (∀ c ∈ (pad2 i).data, c.isDigit = true) ∧
    (i ≠ j → deviceCode (deviceCodePfx name) i ≠ deviceCode (deviceCodePfx name) j) := by
  have hmemrev : ∀ c ∈ trimDash ((name.data.foldl cleanRev []).reverse), goodChar c := by
    intro c hc
    have h1 : c ∈ (name.data.foldl cleanRev []).reverse :=
      (trimDash_within _).subset hc
    exact cleanRev_mem name.data [] (by intro c hc; simp at hc) c (List.mem_reverse.mp h1)
  have hchainrev : List.Chain' noDD (trimDash ((name.data.foldl cleanRev []).reverse)) := by
    have hbase : List.Chain' noDD (name.data.foldl cleanRev []) :=
      cleanRev_chain name.data [] List.chain'_nil
    have hflip : List.Chain' noDD ((name.data.foldl cleanRev []).reverse) :=
      List.chain'_reverse.mpr (hbase.imp (fun a b h hp => h ⟨hp.2, hp.1⟩))
    exact List.Chain'.infix hflip (trimDash_within _)
  have hPOSchain : List.Chain' noDD ("POS" : String).data := by
    refine List.chain'_cons.mpr ⟨fun hp => ?_, List.chain'_cons.mpr
      ⟨fun hp => ?_, List.chain'_singleton _⟩⟩
    · exact absurd hp.1 (by decide)
    · exact absurd hp.1 (by decide)
  have huniq : i ≠ j → deviceCode (deviceCodePfx name) i ≠ deviceCode (deviceCodePfx name) j := by
    intro hij he
    apply hij
    have h0 : ((deviceCodePfx name).data ++ "-POS-".data) ++ (pad2 i).data =
        ((deviceCodePfx name).data ++ "-POS-".data) ++ (pad2 j).data := by
      have h1 := congrArg String.data he
      simp only [deviceCode, String.data_append] at h1
      exact h1
    have h2 := List.append_cancel_left h0
    have h3 : strValR (pad2 i).data = strValR (pad2 j).data := by rw [h2]
    rwa [strValR_pad2, strValR_pad2] at h3
  have hPOSmem : ∀ c ∈ ("POS" : String).data, goodChar c := by
    intro c hc
    fin_cases hc <;> exact Or.inl rfl
  by_cases hcl : (trimDash ((name.data.foldl cleanRev []).reverse)).isEmpty = true
  · refine ⟨rfl, ?_, ?_, ?_, ?_, ?_, ?_, ?_, pad2_len_ge_two i, pad2_all_digits i, huniq⟩ <;>
      simp only [deviceCodePfx_eq, if_pos hcl]
    · decide
    · exact hPOSmem
    · decide
    · decide
    · exact hPOSchain
    · intro _; decide
    · intro _; trivial
  · simp only [deviceCodePfx_eq, if_neg hcl]
    have hne : trimDash ((name.data.foldl cleanRev []).reverse) ≠ [] := by
      intro h
      rw [h] at hcl
      exact hcl rfl
    refine ⟨rfl, ?_, ?_, ?_, ?_, ?_, ?_, ?_, pad2_len_ge_two i, pad2_all_digits i, ?_⟩
    · show ((trimDash ((name.data.foldl cleanRev []).reverse)).take 14).length ≤ 14
      rw [List.length_take]
      exact min_le_left _ _
    · intro c hc
      exact hmemrev c ((List.take_prefix _ _).subset hc)
    · show (trimDash ((name.data.foldl cleanRev []).reverse)).take 14 ≠ []
      rw [Ne, List.take_eq_nil_iff]
      rintro (h | h)
      · exact absurd h (by decide)
      · exact hne h
    · show ((trimDash ((name.data.foldl cleanRev []).reverse)).take 14).head? ≠ some '-'
      rw [List.head?_take, if_neg (by decide)]
      intro h
      exact trimDash_head _ _ h rfl
    · exact hchainrev.prefix (List.take_prefix _ _)
    · intro hlen
      show ((trimDash ((name.data.foldl cleanRev []).reverse)).take 14).getLast? ≠ some '-'
      rw [List.take_of_length_le hlen]
      intro h
      exact trimDash_getLast _ _ h rfl
    · intro hall
      exfalso
      apply hne
      have hdash : ∀ c ∈ (name.data.foldl cleanRev []).reverse, c = '-' := by
        intro c hc
        exact cleanRev_all_dash name.data [] hall (by intro c hc; simp at hc) c
          (List.mem_reverse.mp hc)
      exact trimDash_all_dash _ hdash
    · simpa only [deviceCodePfx_eq, if_neg hcl] using huniq

/-- C5 witness: the theorem evaluated at a concrete tenant name and the
sequence numbers 1 and 2. -/
theorem C5_device_code_format_witness :
    deviceCode (deviceCodePfx "Acme Official") 1 ≠ deviceCode (deviceCodePfx "Acme Official") 2 ∧
    (∀ c ∈ ("" : String).data, c.isAlphanum = false) ∧ deviceCodePfx "" = "POS" ∧
    (trimDash (((("Acme Official") : String).data.foldl cleanRev []).reverse)).length ≤ 14 ∧
    (deviceCodePfx "Acme Official").data.getLast? ≠ some '-' := by
  refine ⟨(C5_device_code_format "Acme Official" 1 2).2.2.2.2.2.2.2.2.2.2 (by decide),
    ?_, (C5_device_code_format "" 1 2).2.2.2.2.2.2.2.1 ?_,
    by decide, (C5_device_code_format "Acme Official" 1 2).2.2.2.2.2.2.1 (by decide)⟩
  · intro c hc
    simp at hc
  · intro c hc
    simp at hc

/-! ### Claim C9 -/

/-- C9: the launcher-prefill slots are chosen by first-match on the
lowercased tenant name, `official` requiring `official` without
`unofficial`; the official slot falls back to the first device, the
unofficial slot to the second when it exists, and otherwise duplicates the
official device; in particular the two tenants `Acme Official` and
`Acme Unofficial` land in their respective slots. -/
theorem C9_launcher_prefill (devices : List DeviceRec) (cloudUrl edgeApiUrl : String) :
    (pick devices "official" = devices.find? (fun d =>
      sContains (lowerS d.company_name) "official" &&
        !(sContains (lowerS d.company_name) "unofficial"))) ∧
    (pick devices "unofficial" = devices.find? (fun d =>
      sContains (lowerS d.company_name) "unofficial")) ∧
    ((pick devices "official").isSome → (chooseSlots devices).1 = pick devices "official") ∧
    (pick devices "official" = none → (chooseSlots devices).1 = devices.head?) ∧
    ((pick devices "unofficial").isSome → (chooseSlots devices).2 = pick devices "unofficial") ∧
    (pick devices "unofficial" = none → 1 < devices.length →
      (chooseSlots devices).2 = devices.get? 1) ∧
    (pick devices "unofficial" = none → devices.length ≤ 1 →
      (chooseSlots devices).2 = (chooseSlots devices).1) ∧
    ((mkPrefill cloudUrl edgeApiUrl devices).deviceIdOfficial =
      (((chooseSlots devices).1).map (fun d => d.device_id)).getD "") ∧
    ((mkPrefill cloudUrl edgeApiUrl devices).deviceIdUnofficial =
      (((chooseSlots devices).2).map (fun d => d.device_id)).getD "") ∧
    (∀ a b : DeviceRec, a.company_name = "Acme Official" →
      b.company_name = "Acme Unofficial" →
      chooseSlots [a, b] = (some a, some b) ∧
      (mkPrefill cloudUrl edgeApiUrl [a, b]).deviceIdOfficial = a.device_id ∧
      (mkPrefill cloudUrl edgeApiUrl [a, b]).deviceIdUnofficial = b.device_id) := by
  refine ⟨rfl, rfl, ?_, ?_, ?_, ?_, ?_, rfl, rfl, ?_⟩
  · intro h
    unfold chooseSlots
    cases hpo : pick devices "official" with
    | none => rw [hpo] at h; simp at h
    | some d => simp [hpo]
  · intro h
    unfold chooseSlots
    simp [h]
  · intro h
    unfold chooseSlots
    cases hpu : pick devices "unofficial" with
    | none => rw [hpu] at h; simp at h
    | some d => simp [hpu]
  · intro h hlen
    match devices, hlen, h with
    | a :: b :: t, _, h =>
      have hc : 1 < (a :: b :: t).length := by simp
      simp [chooseSlots, h, hc]
  · intro h hlen
    have hc : ¬(1 < devices.length) := by omega
    simp [chooseSlots, h, hc]
  · intro a b ha hb
    have hoff : pick [a, b] "official" = some a := by
      show List.find? _ _ = _
      rw [List.find?_cons_of_pos]
      rw [ha]
      decide
    have hun : pick [a, b] "unofficial" = some b := by
      show List.find? _ _ = _
      rw [List.find?_cons_of_neg, List.find?_cons_of_pos]
      · rw [hb]; decide
      · rw [ha]; decide
    have hslots : chooseSlots [a, b] = (some a, some b) := by
      unfold chooseSlots
      rw [hoff, hun]
      simp
    refine ⟨hslots, ?_, ?_⟩
    · show ((chooseSlots [a, b]).1.map (fun d => d.device_id)).getD "" = a.device_id
      rw [hslots]
      rfl
    · show ((chooseSlots [a, b]).2.map (fun d => d.device_id)).getD "" = b.device_id
      rw [hslots]
      rfl

/-! ### Claim C4 -/

/-- C4: at most one run is active per process: when a run is already active,
`start_onboarding` returns the `already running` error with the state
untouched and no event emitted; on acquisition it sets `running`, clears
`stop_requested`, and the background thread clears `running` again when the
run terminates. -/
theorem C4_single_run_guard (st : RunnerState) (d c : Bool) (env : Env) (p : OnboardParams) :
    (st.running = true →
      startOnboarding st d c = (st, .error "Onboarding is already running.", [])) ∧
    (st.running = false → d = true → c = true →
      (startOnboarding st d c).1 =
          { child := none, stop_requested := false, running := true } ∧
        (startOnboarding st d c).2.1 = .ok () ∧
        (startOnboarding st d c).2.2 = [Action.log "Starting onboarding..."]) ∧
    (runThread env p ((startOnboarding st d c).1)).1.running = false := by
  refine ⟨?_, ?_, rfl⟩
  · intro h
    unfold startOnboarding
    rw [if_pos h]
  · intro h hd hc
    subst hd
    subst hc
    unfold startOnboarding
    rw [if_neg (by simp [h])]
    exact ⟨rfl, rfl, rfl⟩

/-- C4 witness: the guard evaluated at a busy state (rejection without side
effects) and at an idle state with a stale stop flag (acquisition sets
`running` and clears `stopRequested`); the state after the thread of a full
concrete run has `running = false`. -/
theorem C4_single_run_guard_witness :
    startOnboarding stBusy true true = (stBusy, .error "Onboarding is already running.", []) ∧
    (startOnboarding stIdle true true).1 =
      { child := none, stop_requested := false, running := true } ∧
    (runThread envOk pHybrid ((startOnboarding stIdle true true).1)).1.running = false :=
  ⟨(C4_single_run_guard stBusy true true envOk pHybrid).1 rfl,
    ((C4_single_run_guard stIdle true true envOk pHybrid).2.1 rfl rfl rfl).1,
    (C4_single_run_guard stIdle true true envOk pHybrid).2.2⟩

/-! ### Claim C1 (corrected) -/

/-- C1 counterexample: a run terminated by an operator stop request and a
run that fails for a non-cancellation reason (missing compose file) both
emit the terminal done event with the same exit code 1, so cancellation is
not mapped to a distinct exit code. -/
theorem C1_exit_code_counterexample :
    (runOnboardingInternal envStopAll pPos).1 = .error "Stopped." ∧
    (runOnboardingInternal envNoCompose pHybrid).1 =
      .error "Compose file not found: /home/edge/docker-compose.edge.images.yml" ∧
    (runThread envStopAll pPos stBusy).2.getLast? = some (Action.doneEv 1) ∧
    (runThread envNoCompose pHybrid stBusy).2.getLast? = some (Action.doneEv 1) :=
  ⟨rfl, rfl, rfl, rfl⟩

/-- C1 amended: the done event carries exit code 0 exactly for successful
runs and exit code 1 for every error — cancellation (`Stopped.`) included,
distinguished from other failures only by the error log line, never by the
exit code; the done event is the last event of the thread. -/
theorem C1_done_exit_codes (env : Env) (p : OnboardParams) (st : RunnerState) :
    ((runOnboardingInternal env p).1 = .ok () →
      (runThread env p st).2 = (runOnboardingInternal env p).2 ++ [Action.doneEv 0]) ∧
    (∀ e, (runOnboardingInternal env p).1 = .error e →
      (runThread env p st).2 = (runOnboardingInternal env p).2 ++
        [Action.log ("[error] " ++ e), Action.doneEv 1]) := by
  constructor
  · intro h
    simp only [runThread, h]
  · intro e h
    simp only [runThread, h]

/-- C1 witness: the amended mapping evaluated on a concrete stopped run and
a concrete successful run. -/
theorem C1_done_exit_codes_witness :
    (runThread envStopAll pPos stBusy).2 = (runOnboardingInternal envStopAll pPos).2 ++
      [Action.log "[error] Stopped.", Action.doneEv 1] ∧
    (runThread envOk pHybrid stBusy).2 =
      (runOnboardingInternal envOk pHybrid).2 ++ [Action.doneEv 0] :=
  ⟨(C1_done_exit_codes envStopAll pPos stBusy).2 "Stopped." rfl,
    (C1_done_exit_codes envOk pHybrid stBusy).1 rfl⟩

/-! ### Claim C7 (corrected) -/

/-- C7 counterexample: a persisted config consisting only of malformed lines
is not fatal: `read_env_file` yields a map without those keys and the run
proceeds to a successful completion instead of aborting. -/
theorem C7_malformed_not_fatal_counterexample :
    readEnvLines ["%%% garbage", "ALSO BAD"] "POSTGRES_PASSWORD" = none ∧
    readEnvLines ["%%% garbage", "ALSO BAD"] "%%% garbage" = none ∧
    (runOnboardingInternal envMalformed pHybrid).1 = .ok () :=
  ⟨rfl, rfl, rfl⟩

/-- C7 amended: an unwritable persisted config is fatal and aborts the run
with the IO error; a malformed or unreadable config is not an error: reading
parses `KEY=VALUE` lines into a map with trimmed keys and values, ignoring
blank lines, lines starting with `#`, and lines without `=`, and an
unreadable file yields the empty map. -/
theorem C7_config_read_write (m : EnvMap) (line : String) (k v : List Char)
    (env : Env) (p : OnboardParams) (ctx : Ctx) (e : String) :
    (trimL line.data = [] → envLineStep m line = m) ∧
    ((trimL line.data).head? = some '#' → envLineStep m line = m) ∧
    (splitAtEq (trimL line.data) = none → envLineStep m line = m) ∧
    (splitAtEq (trimL line.data) = some (k, v) → (trimL line.data).head? ≠ some '#' →
      trimL k ≠ [] →
      envLineStep m line = envInsert m (String.mk (trimL k)) (String.mk (trimL v))) ∧
    (readEnvFile none = emptyEnv) ∧
    ((bundlePhase env p).1 = .ok () → resolveCtx env p = .ok ctx →
      ctx.shouldWrite = true → env.writeRes 0 = some e →
      (runOnboardingInternal env p).1 = .error e) := by
  refine ⟨?_, ?_, ?_, ?_, rfl, ?_⟩
  · intro h
    simp [envLineStep, lineKV, h]
  · intro h
    simp [envLineStep, lineKV, h]
  · intro h
    have hkv : lineKV line = none := by
      simp only [lineKV]
      split
      · rfl
      · rw [h]
    simp [envLineStep, hkv]
  · intro h hnc hk
    have hs : trimL line.data ≠ [] := by
      intro he
      rw [he] at h
      simp [splitAtEq] at h
    have hkv : lineKV line = some (String.mk (trimL k), String.mk (trimL v)) := by
      simp only [lineKV]
      rw [if_neg (by simp [hs, hnc])]
      rw [h]
      simp only []
      rw [if_neg (by simpa using hk)]
    simp [envLineStep, hkv, envInsert]
  · intro hb hres hsw hwr
    rcases hbp : bundlePhase env p with ⟨r, bacts⟩
    rw [hbp] at hb
    simp only at hb
    subst hb
    have hwp : writePhase env ctx = (.error e, [Action.writeEnv (writeEnvLines ctx.envValues)]) := by
      unfold writePhase
      rw [if_pos hsw, hwr]
    simp only [runOnboardingInternal, hbp, hres, hwp]

/-- C7 witness: the amended theorem evaluated on a well-formed line, and on a
concrete oracle whose config write fails with `io error`, aborting the run. -/
theorem C7_config_read_write_witness :
    envLineStep emptyEnv " A = 1 " = envInsert emptyEnv "A" "1" ∧
    (runOnboardingInternal envWriteFail pHybrid).1 = .error "io error" := by
  have h := C7_config_read_write emptyEnv " A = 1 " ("A ".data) (" 1".data)
    envWriteFail pHybrid ctxWF "io error"
  exact ⟨h.2.2.2.1 (by decide) (by decide) (by decide),
    h.2.2.2.2.2 rfl rfl rfl rfl⟩

/-! ### Claim C10 -/

/-- C10: whenever the request's `edge_api_url_for_pos` is empty after
trimming and stripping trailing slashes, the run fails with exactly
`edge_api_url_for_pos is required.` — whatever the mode — and its trace
contains no config write, no process spawn and no HTTP call (only the
bundled-assets copy can precede the check). -/
theorem C10_edge_url_required (env : Env) (p : OnboardParams)
    (hurl : (trimEndSlashes (trimS p.edge_api_url_for_pos)).data = [])
    (hbund : ((!(trimS p.repo_path).data.isEmpty && env.repoLayout) = false) →
      env.bundleRes = .ok ()) :
    (runOnboardingInternal env p).1 = .error "edge_api_url_for_pos is required." ∧
    ∀ a ∈ (runOnboardingInternal env p).2,
      a.isWriteEnv = false ∧ a.isSpawn = false ∧ a.isHttp = false := by
  have hres : resolveCtx env p = .error "edge_api_url_for_pos is required." := by
    simp [resolveCtx, hurl]
  have hbp : (bundlePhase env p = (.ok (), [])) ∨
      (bundlePhase env p = (.ok (), [Action.ensureBundle])) := by
    unfold bundlePhase
    cases hu : (!(trimS p.repo_path).data.isEmpty && env.repoLayout) with
    | true =>
      exact Or.inl rfl
    | false =>
      rw [hbund hu]
      exact Or.inr rfl
  rcases hbp with hb | hb <;> simp only [runOnboardingInternal, hb, hres] <;>
    refine ⟨trivial, ?_⟩
  · intro a ha
    simp at ha
  · intro a ha
    simp only [List.mem_singleton] at ha
    subst ha
    exact ⟨rfl, rfl, rfl⟩

/-- C10 witness: the theorem evaluated on a request whose URL trims and
strips to the empty string. -/
theorem C10_edge_url_required_witness :
    (runOnboardingInternal envOk
      { pHybrid with edge_api_url_for_pos := "  /// " }).1 =
      .error "edge_api_url_for_pos is required." ∧
    ∀ a ∈ (runOnboardingInternal envOk
      { pHybrid with edge_api_url_for_pos := "  /// " }).2,
      a.isWriteEnv = false ∧ a.isSpawn = false ∧ a.isHttp = false :=
  C10_edge_url_required envOk { pHybrid with edge_api_url_for_pos := "  /// " }
    (by decide) (fun _ => rfl)

/-- C9 witness: the theorem evaluated at a concrete two-device list with the
scenario's tenant names. -/
theorem C9_launcher_prefill_witness :
    chooseSlots [devAcmeOff, devAcmeUn] = (some devAcmeOff, some devAcmeUn) ∧
    (mkPrefill "" "http://edge" [devAcmeOff, devAcmeUn]).deviceIdOfficial = "d1" ∧
    (mkPrefill "" "http://edge" [devAcmeOff, devAcmeUn]).deviceIdUnofficial = "d2" :=
  (C9_launcher_prefill [devAcmeOff, devAcmeUn] "" "http://edge").2.2.2.2.2.2.2.2.2
    devAcmeOff devAcmeUn rfl rfl

/-! ### Round-trip facts about the config file (for claim C3) -/

theorem envLineStep_none (m : EnvMap) (line : String) (h : lineKV line = none) :
    envLineStep m line = m := by
  simp [envLineStep, h]

theorem envLineStep_some (m : EnvMap) (line : String) (kv : String × String)
    (h : lineKV line = some kv) :
    envLineStep m line = envInsert m kv.1 kv.2 := by
  simp [envLineStep, h]

theorem dropWhile_wsp_idem (l : List Char) :
    (l.dropWhile wsp).dropWhile wsp = l.dropWhile wsp := by
  induction l with
  | nil => rfl
  | cons c cs ih =>
    rw [List.dropWhile_cons]
    split
    · exact ih
    · next h => rw [List.dropWhile_cons, if_neg h]

theorem dropWhile_head_not (c : Char) (cs : List Char) (h : wsp c = false) :
    (c :: cs).dropWhile wsp = c :: cs := by
  rw [List.dropWhile_cons, if_neg (by simp [h])]

/-- The result of `str::trim` takes no further left trim. -/
theorem trimL_dropWhile (l : List Char) : (trimL l).dropWhile wsp = trimL l := by
  unfold trimL
  have hyi : (l.dropWhile wsp).dropWhile wsp = l.dropWhile wsp := dropWhile_wsp_idem l
  cases hcase : ((l.dropWhile wsp).reverse.dropWhile wsp).reverse with
  | nil => rfl
  | cons c rest =>
    have hpre : c :: rest <+: l.dropWhile wsp := by
      rw [← hcase]
      have h1 : (((l.dropWhile wsp).reverse.dropWhile wsp).reverse).reverse <:+
          (l.dropWhile wsp).reverse := by
        rw [List.reverse_reverse]
        exact List.dropWhile_suffix _
      exact List.reverse_suffix.mp h1
    obtain ⟨t, ht⟩ := hpre
    have hwc : wsp c = false := by
      cases hc : wsp c with
      | false => rfl
      | true =>
        exfalso
        have hy2 : l.dropWhile wsp = c :: (rest ++ t) := by rw [← ht]; rfl
        rw [hy2, List.dropWhile_cons, if_pos hc] at hyi
        have hlen := congrArg List.length hyi
        have hle : ((rest ++ t).dropWhile wsp).length ≤ (rest ++ t).length :=
          (List.dropWhile_suffix wsp).length_le
        rw [List.length_cons] at hlen
        omega
    rw [dropWhile_head_not c rest hwc]

/-- The result of `str::trim` takes no further right trim. -/
theorem trimL_rev_dropWhile (l : List Char) :
    (trimL l).reverse.dropWhile wsp = (trimL l).reverse := by
  unfold trimL
  rw [List.reverse_reverse]
  exact dropWhile_wsp_idem _

/-- Every value produced by the line parser is already trimmed. -/
theorem lineKV_val_trim (line : String) (kv : String × String)
    (h : lineKV line = some kv) :
    kv.2.data.dropWhile wsp = kv.2.data ∧
    kv.2.data.reverse.dropWhile wsp = kv.2.data.reverse := by
  simp only [lineKV] at h
  split at h
  · cases h
  · split at h
    · cases h
    · split at h
      · cases h
      · rw [Option.some.injEq] at h
        subst h
        rename_i k v h1 h2
        exact ⟨trimL_dropWhile v, trimL_rev_dropWhile v⟩

/-- Every value stored by the read loop is already trimmed. -/
theorem readEnvLines_val_stable (lines : List String) :
    ∀ (m : EnvMap),
      (∀ k v, m k = some v → v.data.dropWhile wsp = v.data ∧
        v.data.reverse.dropWhile wsp = v.data.reverse) →
      ∀ k v, (lines.foldl envLineStep m) k = some v →
        v.data.dropWhile wsp = v.data ∧
        v.data.reverse.dropWhile wsp = v.data.reverse := by
  induction lines with
  | nil => intro m hm; exact hm
  | cons l ls ih =>
    intro m hm
    rw [List.foldl_cons]
    apply ih
    intro k v hv
    rcases hkv : lineKV l with _ | kv
    · rw [envLineStep_none m l hkv] at hv
      exact hm k v hv
    · rw [envLineStep_some m l kv hkv] at hv
      simp only [envInsert] at hv
      split at hv
      · rw [Option.some.injEq] at hv
        subst hv
        exact lineKV_val_trim l kv hkv
      · exact hm k v hv

/-- Every value of the map returned by `read_env_file` is already trimmed. -/
theorem readEnvFile_val_stable (content : Option (List String)) (k v : String)
    (h : readEnvFile content k = some v) :
    v.data.dropWhile wsp = v.data ∧
    v.data.reverse.dropWhile wsp = v.data.reverse := by
  cases content with
  | none => simp [readEnvFile, emptyEnv] at h
  | some ls =>
    exact readEnvLines_val_stable ls emptyEnv
      (by intro k v hkv; simp [emptyEnv] at hkv) k v h

/-- `split_once('=')` on a key without `'='` followed by `'='`. -/
theorem splitAtEq_append (k rest : List Char) (h : '=' ∉ k) :
    splitAtEq (k ++ '=' :: rest) = some (k, rest) := by
  induction k with
  | nil => simp [splitAtEq]
  | cons c cs ih =>
    have hc : ¬(c = '=') := fun he => h (List.mem_cons.mpr (Or.inl he.symm))
    have hcs : '=' ∉ cs := fun hm => h (List.mem_cons_of_mem c hm)
    rw [List.cons_append]
    simp only [splitAtEq]
    rw [if_neg (by simpa using hc), ih hcs]

/-- Trimming a line of the form `KEY=value` with a sane key only right-trims
the value part. -/
theorem trimL_keyed (k v : List Char) (c0 : Char) (cs0 : List Char)
    (hk : k = c0 :: cs0) (hhead : wsp c0 = false) :
    trimL (k ++ '=' :: v) = k ++ '=' :: (v.reverse.dropWhile wsp).reverse := by
  subst hk
  unfold trimL
  rw [List.cons_append, dropWhile_head_not _ _ hhead]
  have h2 : (c0 :: (cs0 ++ '=' :: v)).reverse =
      v.reverse ++ '=' :: (c0 :: cs0).reverse := by
    rw [← List.cons_append, List.reverse_append, List.reverse_cons,
      List.append_assoc]
    rfl
  rw [h2, List.dropWhile_append]
  by_cases he : (v.reverse.dropWhile wsp).isEmpty
  · rw [if_pos he]
    rw [dropWhile_head_not _ _ (by decide)]
    have hve : v.reverse.dropWhile wsp = [] := by simpa using he
    rw [hve]
    simp
  · rw [if_neg he]
    rw [List.reverse_append]
    simp

/-- The parse of a written line `KEY=value` for a sane concrete key. -/
theorem lineKV_keyed (kstr v : String) (c0 : Char) (cs0 : List Char)
    (hk : kstr.data = c0 :: cs0)
    (hc0 : wsp c0 = false) (hc0h : ¬(c0 = '#'))
    (hne : '=' ∉ kstr.data)
    (htr : trimL kstr.data = kstr.data) :
    lineKV (kstr ++ "=" ++ v) =
      some (kstr, String.mk (trimL ((v.data.reverse.dropWhile wsp).reverse))) := by
  have hdata : (kstr ++ "=" ++ v).data = kstr.data ++ '=' :: v.data := by
    rw [String.data_append, String.data_append, List.append_assoc]
    rfl
  simp only [lineKV]
  rw [hdata, trimL_keyed kstr.data v.data c0 cs0 hk hc0]
  have hemp : (kstr.data ++ '=' :: (v.data.reverse.dropWhile wsp).reverse).isEmpty
      = false := by rw [hk]; rfl
  have hhd : (kstr.data ++ '=' :: (v.data.reverse.dropWhile wsp).reverse).head?
      = some c0 := by rw [hk]; rfl
  rw [if_neg (by simp [hemp, hhd, hc0h])]
  rw [splitAtEq_append _ _ hne]
  simp only [htr]
  rw [if_neg (by simp [htr, hk])]

/-- The parse of a written line whose value is already trimmed. -/
theorem lineKV_keyed_stable (kstr v : String) (c0 : Char) (cs0 : List Char)
    (hk : kstr.data = c0 :: cs0)
    (hc0 : wsp c0 = false) (hc0h : ¬(c0 = '#'))
    (hne : '=' ∉ kstr.data)
    (htr : trimL kstr.data = kstr.data)
    (hv1 : v.data.dropWhile wsp = v.data)
    (hv2 : v.data.reverse.dropWhile wsp = v.data.reverse) :
    lineKV (kstr ++ "=" ++ v) = some (kstr, v) := by
  rw [lineKV_keyed kstr v c0 cs0 hk hc0 hc0h hne htr]
  rw [hv2, List.reverse_reverse]
  unfold trimL
  rw [hv1, hv2, List.reverse_reverse]

/-- A line that parses to nothing never contributes any key. -/
theorem line_skip (K line : String) (h : lineKV line = none) :
    ∀ kv, lineKV line = some kv → kv.1 ≠ K := by
  intro kv hkv
  rw [h] at hkv
  cases hkv

/-- A written line with concrete key `kstr` never contributes key `K ≠ kstr`,
whatever its value. -/
theorem line_safe (K kstr v : String) (c0 : Char) (cs0 : List Char)
    (hk : kstr.data = c0 :: cs0)
    (hc0 : wsp c0 = false) (hc0h : ¬(c0 = '#'))
    (hne : '=' ∉ kstr.data)
    (htr : trimL kstr.data = kstr.data)
    (hKne : kstr ≠ K) :
    ∀ kv, lineKV (kstr ++ "=" ++ v) = some kv → kv.1 ≠ K := by
  intro kv hkv
  rw [lineKV_keyed kstr v c0 cs0 hk hc0 hc0h hne htr] at hkv
  rw [Option.some.injEq] at hkv
  subst hkv
  exact hKne

/-- Folding the read loop over lines none of which contributes key `K`
leaves the entry of `K` unchanged. -/
theorem lookup_foldl_ne (K : String) (lines : List String) :
    ∀ (m : EnvMap),
      (∀ line ∈ lines, ∀ kv, lineKV line = some kv → kv.1 ≠ K) →
      (lines.foldl envLineStep m) K = m K := by
  induction lines with
  | nil => intro m _; rfl
  | cons l ls ih =>
    intro m h
    rw [List.foldl_cons]
    rw [ih _ (fun line hl => h line (List.mem_cons_of_mem l hl))]
    rcases hkv : lineKV l with _ | kv
    · rw [envLineStep_none m l hkv]
    · rw [envLineStep_some m l kv hkv]
      have hne := h l (List.mem_cons_self l ls) kv hkv
      simp only [envInsert]
      rw [if_neg (fun he => hne he.symm)]

/-- An all-alphanumeric string is already trimmed. -/
theorem stable_of_alnum (s : String) (h : ∀ c ∈ s.data, c.isAlphanum = true) :
    s.data.dropWhile wsp = s.data ∧
    s.data.reverse.dropWhile wsp = s.data.reverse := by
  constructor
  · cases hd : s.data with
    | nil => rfl
    | cons c cs =>
      exact dropWhile_head_not c cs
        (by simpa [wsp] using alnum_not_ws c (h c (hd ▸ List.mem_cons_self c cs)))
  · cases hd : s.data.reverse with
    | nil => rfl
    | cons c cs =>
      have hc : c ∈ s.data := by
        rw [← List.mem_reverse, hd]
        exact List.mem_cons_self c cs
      exact dropWhile_head_not c cs
        (by simpa [wsp] using alnum_not_ws c (h c hc))

/-- Re-reading a written config yields the stored Postgres password when it
is a trimmed value. -/
theorem reread_writeEnv_pg (m : EnvMap) (v : String)
    (hm : m "POSTGRES_PASSWORD" = some v)
    (hv1 : v.data.dropWhile wsp = v.data)
    (hv2 : v.data.reverse.dropWhile wsp = v.data.reverse) :
    readEnvLines (writeEnvLines m) "POSTGRES_PASSWORD" = some v := by
  have hdec : writeEnvLines m =
      ([ "# Auto-generated by Setup Desktop",
         "# Do not commit this file (contains secrets).",
         "",
         "# Edge service ports",
         "API_PORT=" ++ envGetD m "API_PORT" "8001",
         "ADMIN_PORT=" ++ envGetD m "ADMIN_PORT" "3000",
         "",
         "# Postgres",
         "POSTGRES_DB=" ++ envGetD m "POSTGRES_DB" "ahtrading",
         "POSTGRES_USER=" ++ envGetD m "POSTGRES_USER" "ahtrading" ] ++
       ("POSTGRES_PASSWORD=" ++ envGetD m "POSTGRES_PASSWORD" "") ::
       [ "",
         "# App DB role",
         "APP_DB_USER=" ++ envGetD m "APP_DB_USER" "ahapp",
         "APP_DB_PASSWORD=" ++ envGetD m "APP_DB_PASSWORD" "",
         "",
         "# Bootstrap admin (script toggles this off after provisioning)",
         "BOOTSTRAP_ADMIN=" ++ envGetD m "BOOTSTRAP_ADMIN" "0",
         "BOOTSTRAP_ADMIN_EMAIL=" ++ envGetD m "BOOTSTRAP_ADMIN_EMAIL" "admin@ahtrading.local",
         "BOOTSTRAP_ADMIN_PASSWORD=" ++ envGetD m "BOOTSTRAP_ADMIN_PASSWORD" "",
         "BOOTSTRAP_ADMIN_RESET_PASSWORD=" ++ envGetD m "BOOTSTRAP_ADMIN_RESET_PASSWORD" "0",
         "",
         "# MinIO / attachments",
         "MINIO_ROOT_USER=" ++ envGetD m "MINIO_ROOT_USER" "minioadmin",
         "MINIO_ROOT_PASSWORD=" ++ envGetD m "MINIO_ROOT_PASSWORD" "",
         "S3_BUCKET=" ++ envGetD m "S3_BUCKET" "attachments",
         "",
         "# Edge -> cloud sync (optional)",
         "EDGE_SYNC_TARGET_URL=" ++ envGetD m "EDGE_SYNC_TARGET_URL" "",
         "EDGE_SYNC_KEY=" ++ envGetD m "EDGE_SYNC_KEY" "",
         "EDGE_SYNC_NODE_ID=" ++ envGetD m "EDGE_SYNC_NODE_ID" "",
         "" ]) := rfl
  have hval : envGetD m "POSTGRES_PASSWORD" "" = v := by
    simp [envGetD, hm]
  have hkv := lineKV_keyed_stable "POSTGRES_PASSWORD" v 'P' "OSTGRES_PASSWORD".data
    rfl (by decide) (by decide) (by decide) (by decide) hv1 hv2
  have hpost : ∀ line ∈
      ([ "",
         "# App DB role",
         "APP_DB_USER=" ++ envGetD m "APP_DB_USER" "ahapp",
         "APP_DB_PASSWORD=" ++ envGetD m "APP_DB_PASSWORD" "",
         "",
         "# Bootstrap admin (script toggles this off after provisioning)",
         "BOOTSTRAP_ADMIN=" ++ envGetD m "BOOTSTRAP_ADMIN" "0",
         "BOOTSTRAP_ADMIN_EMAIL=" ++ envGetD m "BOOTSTRAP_ADMIN_EMAIL" "admin@ahtrading.local",
         "BOOTSTRAP_ADMIN_PASSWORD=" ++ envGetD m "BOOTSTRAP_ADMIN_PASSWORD" "",
         "BOOTSTRAP_ADMIN_RESET_PASSWORD=" ++ envGetD m "BOOTSTRAP_ADMIN_RESET_PASSWORD" "0",
         "",
         "# MinIO / attachments",
         "MINIO_ROOT_USER=" ++ envGetD m "MINIO_ROOT_USER" "minioadmin",
         "MINIO_ROOT_PASSWORD=" ++ envGetD m "MINIO_ROOT_PASSWORD" "",
         "S3_BUCKET=" ++ envGetD m "S3_BUCKET" "attachments",
         "",
         "# Edge -> cloud sync (optional)",
         "EDGE_SYNC_TARGET_URL=" ++ envGetD m "EDGE_SYNC_TARGET_URL" "",
         "EDGE_SYNC_KEY=" ++ envGetD m "EDGE_SYNC_KEY" "",
         "EDGE_SYNC_NODE_ID=" ++ envGetD m "EDGE_SYNC_NODE_ID" "",
         "" ] : List String),
      ∀ kv, lineKV line = some kv → kv.1 ≠ "POSTGRES_PASSWORD" := by
    intro line hl
    simp only [List.mem_cons, List.not_mem_nil, or_false] at hl
    rcases hl with rfl | rfl | rfl | rfl | rfl | rfl | rfl | rfl | rfl | rfl | rfl |
      rfl | rfl | rfl | rfl | rfl | rfl | rfl | rfl | rfl | rfl
    · exact line_skip _ _ rfl
    · exact line_skip _ _ rfl
    · exact line_safe _ "APP_DB_USER" _ 'A' "PP_DB_USER".data rfl
        (by decide) (by decide) (by decide) (by decide) (by decide)
    · exact line_safe _ "APP_DB_PASSWORD" _ 'A' "PP_DB_PASSWORD".data rfl
        (by decide) (by decide) (by decide) (by decide) (by decide)
    · exact line_skip _ _ rfl
    · exact line_skip _ _ rfl
    · exact line_safe _ "BOOTSTRAP_ADMIN" _ 'B' "OOTSTRAP_ADMIN".data rfl
        (by decide) (by decide) (by decide) (by decide) (by decide)
    · exact line_safe _ "BOOTSTRAP_ADMIN_EMAIL" _ 'B' "OOTSTRAP_ADMIN_EMAIL".data rfl
        (by decide) (by decide) (by decide) (by decide) (by decide)
    · exact line_safe _ "BOOTSTRAP_ADMIN_PASSWORD" _ 'B' "OOTSTRAP_ADMIN_PASSWORD".data rfl
        (by decide) (by decide) (by decide) (by decide) (by decide)
    · exact line_safe _ "BOOTSTRAP_ADMIN_RESET_PASSWORD" _ 'B' "OOTSTRAP_ADMIN_RESET_PASSWORD".data rfl
        (by decide) (by decide) (by decide) (by decide) (by decide)
    · exact line_skip _ _ rfl
    · exact line_skip _ _ rfl
    · exact line_safe _ "MINIO_ROOT_USER" _ 'M' "INIO_ROOT_USER".data rfl
        (by decide) (by decide) (by decide) (by decide) (by decide)
    · exact line_safe _ "MINIO_ROOT_PASSWORD" _ 'M' "INIO_ROOT_PASSWORD".data rfl
        (by decide) (by decide) (by decide) (by decide) (by decide)
    · exact line_safe _ "S3_BUCKET" _ 'S' "3_BUCKET".data rfl
        (by decide) (by decide) (by decide) (by decide) (by decide)
    · exact line_skip _ _ rfl
    · exact line_skip _ _ rfl
    · exact line_safe _ "EDGE_SYNC_TARGET_URL" _ 'E' "DGE_SYNC_TARGET_URL".data rfl
        (by decide) (by decide) (by decide) (by decide) (by decide)
    · exact line_safe _ "EDGE_SYNC_KEY" _ 'E' "DGE_SYNC_KEY".data rfl
        (by decide) (by decide) (by decide) (by decide) (by decide)
    · exact line_safe _ "EDGE_SYNC_NODE_ID" _ 'E' "DGE_SYNC_NODE_ID".data rfl
        (by decide) (by decide) (by decide) (by decide) (by decide)
    · exact line_skip _ _ rfl
  have hkv2 : lineKV ("POSTGRES_PASSWORD=" ++ v) = some ("POSTGRES_PASSWORD", v) := hkv
  rw [readEnvLines, hdec, List.foldl_append, List.foldl_cons, hval]
  rw [envLineStep_some _ _ _ hkv2]
  rw [lookup_foldl_ne _ _ _ hpost]
  simp [envInsert]

/-- Re-reading a written config yields the stored app-role password when it
is a trimmed value. -/
theorem reread_writeEnv_app (m : EnvMap) (v : String)
    (hm : m "APP_DB_PASSWORD" = some v)
    (hv1 : v.data.dropWhile wsp = v.data)
    (hv2 : v.data.reverse.dropWhile wsp = v.data.reverse) :
    readEnvLines (writeEnvLines m) "APP_DB_PASSWORD" = some v := by
  have hdec : writeEnvLines m =
      ([ "# Auto-generated by Setup Desktop",
         "# Do not commit this file (contains secrets).",
         "",
         "# Edge service ports",
         "API_PORT=" ++ envGetD m "API_PORT" "8001",
         "ADMIN_PORT=" ++ envGetD m "ADMIN_PORT" "3000",
         "",
         "# Postgres",
         "POSTGRES_DB=" ++ envGetD m "POSTGRES_DB" "ahtrading",
         "POSTGRES_USER=" ++ envGetD m "POSTGRES_USER" "ahtrading",
         "POSTGRES_PASSWORD=" ++ envGetD m "POSTGRES_PASSWORD" "",
         "",
         "# App DB role",
         "APP_DB_USER=" ++ envGetD m "APP_DB_USER" "ahapp" ] ++
       ("APP_DB_PASSWORD=" ++ envGetD m "APP_DB_PASSWORD" "") ::
       [ "",
         "# Bootstrap admin (script toggles this off after provisioning)",
         "BOOTSTRAP_ADMIN=" ++ envGetD m "BOOTSTRAP_ADMIN" "0",
         "BOOTSTRAP_ADMIN_EMAIL=" ++ envGetD m "BOOTSTRAP_ADMIN_EMAIL" "admin@ahtrading.local",
         "BOOTSTRAP_ADMIN_PASSWORD=" ++ envGetD m "BOOTSTRAP_ADMIN_PASSWORD" "",
         "BOOTSTRAP_ADMIN_RESET_PASSWORD=" ++ envGetD m "BOOTSTRAP_ADMIN_RESET_PASSWORD" "0",
         "",
         "# MinIO / attachments",
         "MINIO_ROOT_USER=" ++ envGetD m "MINIO_ROOT_USER" "minioadmin",
         "MINIO_ROOT_PASSWORD=" ++ envGetD m "MINIO_ROOT_PASSWORD" "",
         "S3_BUCKET=" ++ envGetD m "S3_BUCKET" "attachments",
         "",
         "# Edge -> cloud sync (optional)",
         "EDGE_SYNC_TARGET_URL=" ++ envGetD m "EDGE_SYNC_TARGET_URL" "",
         "EDGE_SYNC_KEY=" ++ envGetD m "EDGE_SYNC_KEY" "",
         "EDGE_SYNC_NODE_ID=" ++ envGetD m "EDGE_SYNC_NODE_ID" "",
         "" ]) := rfl
  have hval : envGetD m "APP_DB_PASSWORD" "" = v := by
    simp [envGetD, hm]
  have hkv := lineKV_keyed_stable "APP_DB_PASSWORD" v 'A' "PP_DB_PASSWORD".data
    rfl (by decide) (by decide) (by decide) (by decide) hv1 hv2
  have hpost : ∀ line ∈
      ([ "",
         "# Bootstrap admin (script toggles this off after provisioning)",
         "BOOTSTRAP_ADMIN=" ++ envGetD m "BOOTSTRAP_ADMIN" "0",
         "BOOTSTRAP_ADMIN_EMAIL=" ++ envGetD m "BOOTSTRAP_ADMIN_EMAIL" "admin@ahtrading.local",
         "BOOTSTRAP_ADMIN_PASSWORD=" ++ envGetD m "BOOTSTRAP_ADMIN_PASSWORD" "",
         "BOOTSTRAP_ADMIN_RESET_PASSWORD=" ++ envGetD m "BOOTSTRAP_ADMIN_RESET_PASSWORD" "0",
         "",
         "# MinIO / attachments",
         "MINIO_ROOT_USER=" ++ envGetD m "MINIO_ROOT_USER" "minioadmin",
         "MINIO_ROOT_PASSWORD=" ++ envGetD m "MINIO_ROOT_PASSWORD" "",
         "S3_BUCKET=" ++ envGetD m "S3_BUCKET" "attachments",
         "",
         "# Edge -> cloud sync (optional)",
         "EDGE_SYNC_TARGET_URL=" ++ envGetD m "EDGE_SYNC_TARGET_URL" "",
         "EDGE_SYNC_KEY=" ++ envGetD m "EDGE_SYNC_KEY" "",
         "EDGE_SYNC_NODE_ID=" ++ envGetD m "EDGE_SYNC_NODE_ID" "",
         "" ] : List String),
      ∀ kv, lineKV line = some kv → kv.1 ≠ "APP_DB_PASSWORD" := by
    intro line hl
    simp only [List.mem_cons, List.not_mem_nil, or_false] at hl
    rcases hl with rfl | rfl | rfl | rfl | rfl | rfl | rfl | rfl | rfl | rfl | rfl |
      rfl | rfl | rfl | rfl | rfl | rfl
    · exact line_skip _ _ rfl
    · exact line_skip _ _ rfl
    · exact line_safe _ "BOOTSTRAP_ADMIN" _ 'B' "OOTSTRAP_ADMIN".data rfl
        (by decide) (by decide) (by decide) (by decide) (by decide)
    · exact line_safe _ "BOOTSTRAP_ADMIN_EMAIL" _ 'B' "OOTSTRAP_ADMIN_EMAIL".data rfl
        (by decide) (by decide) (by decide) (by decide) (by decide)
    · exact line_safe _ "BOOTSTRAP_ADMIN_PASSWORD" _ 'B' "OOTSTRAP_ADMIN_PASSWORD".data rfl
        (by decide) (by decide) (by decide) (by decide) (by decide)
    · exact line_safe _ "BOOTSTRAP_ADMIN_RESET_PASSWORD" _ 'B' "OOTSTRAP_ADMIN_RESET_PASSWORD".data rfl
        (by decide) (by decide) (by decide) (by decide) (by decide)
    · exact line_skip _ _ rfl
    · exact line_skip _ _ rfl
    · exact line_safe _ "MINIO_ROOT_USER" _ 'M' "INIO_ROOT_USER".data rfl
        (by decide) (by decide) (by decide) (by decide) (by decide)
    · exact line_safe _ "MINIO_ROOT_PASSWORD" _ 'M' "INIO_ROOT_PASSWORD".data rfl
        (by decide) (by decide) (by decide) (by decide) (by decide)
    · exact line_safe _ "S3_BUCKET" _ 'S' "3_BUCKET".data rfl
        (by decide) (by decide) (by decide) (by decide) (by decide)
    · exact line_skip _ _ rfl
    · exact line_skip _ _ rfl
    · exact line_safe _ "EDGE_SYNC_TARGET_URL" _ 'E' "DGE_SYNC_TARGET_URL".data rfl
        (by decide) (by decide) (by decide) (by decide) (by decide)
    · exact line_safe _ "EDGE_SYNC_KEY" _ 'E' "DGE_SYNC_KEY".data rfl
        (by decide) (by decide) (by decide) (by decide) (by decide)
    · exact line_safe _ "EDGE_SYNC_NODE_ID" _ 'E' "DGE_SYNC_NODE_ID".data rfl
        (by decide) (by decide) (by decide) (by decide) (by decide)
    · exact line_skip _ _ rfl
  have hkv2 : lineKV ("APP_DB_PASSWORD=" ++ v) = some ("APP_DB_PASSWORD", v) := hkv
  rw [readEnvLines, hdec, List.foldl_append, List.foldl_cons, hval]
  rw [envLineStep_some _ _ _ hkv2]
  rw [lookup_foldl_ne _ _ _ hpost]
  simp [envInsert]

/-- Re-reading a written config yields the stored MinIO root password when
it is a trimmed value. -/
theorem reread_writeEnv_minio (m : EnvMap) (v : String)
    (hm : m "MINIO_ROOT_PASSWORD" = some v)
    (hv1 : v.data.dropWhile wsp = v.data)
    (hv2 : v.data.reverse.dropWhile wsp = v.data.reverse) :
    readEnvLines (writeEnvLines m) "MINIO_ROOT_PASSWORD" = some v := by
  have hdec : writeEnvLines m =
      ([ "# Auto-generated by Setup Desktop",
         "# Do not commit this file (contains secrets).",
         "",
         "# Edge service ports",
         "API_PORT=" ++ envGetD m "API_PORT" "8001",
         "ADMIN_PORT=" ++ envGetD m "ADMIN_PORT" "3000",
         "",
         "# Postgres",
         "POSTGRES_DB=" ++ envGetD m "POSTGRES_DB" "ahtrading",
         "POSTGRES_USER=" ++ envGetD m "POSTGRES_USER" "ahtrading",
         "POSTGRES_PASSWORD=" ++ envGetD m "POSTGRES_PASSWORD" "",
         "",
         "# App DB role",
         "APP_DB_USER=" ++ envGetD m "APP_DB_USER" "ahapp",
         "APP_DB_PASSWORD=" ++ envGetD m "APP_DB_PASSWORD" "",
         "",
         "# Bootstrap admin (script toggles this off after provisioning)",
         "BOOTSTRAP_ADMIN=" ++ envGetD m "BOOTSTRAP_ADMIN" "0",
         "BOOTSTRAP_ADMIN_EMAIL=" ++ envGetD m "BOOTSTRAP_ADMIN_EMAIL" "admin@ahtrading.local",
         "BOOTSTRAP_ADMIN_PASSWORD=" ++ envGetD m "BOOTSTRAP_ADMIN_PASSWORD" "",
         "BOOTSTRAP_ADMIN_RESET_PASSWORD=" ++ envGetD m "BOOTSTRAP_ADMIN_RESET_PASSWORD" "0",
         "",
         "# MinIO / attachments",
         "MINIO_ROOT_USER=" ++ envGetD m "MINIO_ROOT_USER" "minioadmin" ] ++
       ("MINIO_ROOT_PASSWORD=" ++ envGetD m "MINIO_ROOT_PASSWORD" "") ::
       [ "S3_BUCKET=" ++ envGetD m "S3_BUCKET" "attachments",
         "",
         "# Edge -> cloud sync (optional)",
         "EDGE_SYNC_TARGET_URL=" ++ envGetD m "EDGE_SYNC_TARGET_URL" "",
         "EDGE_SYNC_KEY=" ++ envGetD m "EDGE_SYNC_KEY" "",
         "EDGE_SYNC_NODE_ID=" ++ envGetD m "EDGE_SYNC_NODE_ID" "",
         "" ]) := rfl
  have hval : envGetD m "MINIO_ROOT_PASSWORD" "" = v := by
    simp [envGetD, hm]
  have hkv := lineKV_keyed_stable "MINIO_ROOT_PASSWORD" v 'M' "INIO_ROOT_PASSWORD".data
    rfl (by decide) (by decide) (by decide) (by decide) hv1 hv2
  have hpost : ∀ line ∈
      ([ "S3_BUCKET=" ++ envGetD m "S3_BUCKET" "attachments",
         "",
         "# Edge -> cloud sync (optional)",
         "EDGE_SYNC_TARGET_URL=" ++ envGetD m "EDGE_SYNC_TARGET_URL" "",
         "EDGE_SYNC_KEY=" ++ envGetD m "EDGE_SYNC_KEY" "",
         "EDGE_SYNC_NODE_ID=" ++ envGetD m "EDGE_SYNC_NODE_ID" "",
         "" ] : List String),
      ∀ kv, lineKV line = some kv → kv.1 ≠ "MINIO_ROOT_PASSWORD" := by
    intro line hl
    simp only [List.mem_cons, List.not_mem_nil, or_false] at hl
    rcases hl with rfl | rfl | rfl | rfl | rfl | rfl | rfl
    · exact line_safe _ "S3_BUCKET" _ 'S' "3_BUCKET".data rfl
        (by decide) (by decide) (by decide) (by decide) (by decide)
    · exact line_skip _ _ rfl
    · exact line_skip _ _ rfl
    · exact line_safe _ "EDGE_SYNC_TARGET_URL" _ 'E' "DGE_SYNC_TARGET_URL".data rfl
        (by decide) (by decide) (by decide) (by decide) (by decide)
    · exact line_safe _ "EDGE_SYNC_KEY" _ 'E' "DGE_SYNC_KEY".data rfl
        (by decide) (by decide) (by decide) (by decide) (by decide)
    · exact line_safe _ "EDGE_SYNC_NODE_ID" _ 'E' "DGE_SYNC_NODE_ID".data rfl
        (by decide) (by decide) (by decide) (by decide) (by decide)
    · exact line_skip _ _ rfl
  have hkv2 : lineKV ("MINIO_ROOT_PASSWORD=" ++ v) = some ("MINIO_ROOT_PASSWORD", v) := hkv
  rw [readEnvLines, hdec, List.foldl_append, List.foldl_cons, hval]
  rw [envLineStep_some _ _ _ hkv2]
  rw [lookup_foldl_ne _ _ _ hpost]
  simp [envInsert]

/-- The three secret entries of the resolved `env_values` map: each is the
existing non-empty config value when present, and a fresh 24-character
random secret otherwise (main.rs 557-588). -/
theorem resolveCtx_secrets (env : Env) (p : OnboardParams) (ctx : Ctx)
    (hres : resolveCtx env p = .ok ctx) :
    ∃ r1 r2 r3 : Nat,
      ctx.envValues "POSTGRES_PASSWORD" =
        some (((readEnvFile env.fileLines "POSTGRES_PASSWORD").filter
          (fun s => !(trimS s).data.isEmpty)).getD (randSecret env.rng r1 24)) ∧
      ctx.envValues "APP_DB_PASSWORD" =
        some (((readEnvFile env.fileLines "APP_DB_PASSWORD").filter
          (fun s => !(trimS s).data.isEmpty)).getD (randSecret env.rng r2 24)) ∧
      ctx.envValues "MINIO_ROOT_PASSWORD" =
        some (((readEnvFile env.fileLines "MINIO_ROOT_PASSWORD").filter
          (fun s => !(trimS s).data.isEmpty)).getD (randSecret env.rng r3 24)) := by
  simp only [resolveCtx] at hres
  split at hres
  · cases hres
  · split at hres
    · cases hres
    · rw [Except.ok.injEq] at hres
      subst hres
      exact ⟨_, _, _, rfl, rfl, rfl⟩

/-! ### The generated admin password (for claim C8) -/

/-- A log line whose first character is not a space is not the password
echo line. -/
theorem log_ne_echo (l pwd : String) (c : Char) (hl : l.data.head? = some c)
    (hc : ¬(c = ' ')) : Action.log l ≠ Action.log ("  " ++ pwd) := by
  intro he
  injection he with h
  subst h
  have h2 : some ' ' = some c := hl
  injection h2 with h3
  exact hc h3.symm

/-- The empty log line is not the password echo line. -/
theorem log_nil_ne_echo (pwd : String) :
    Action.log "" ≠ Action.log ("  " ++ pwd) := by
  intro he
  injection he with h
  have h2 : ([] : List Char) = ' ' :: ' ' :: pwd.data := congrArg String.data h
  cases h2

/-- The device-registration log line is not the echo of an alphanumeric
password: its third character is a dash. -/
theorem deviceLoop_line_ne_echo (dcode pwd : String)
    (hp : ∀ c ∈ pwd.data, c.isAlphanum = true) :
    Action.log ("  - " ++ dcode ++ " registered") ≠ Action.log ("  " ++ pwd) := by
  intro he
  injection he with h
  have hd : ("  - " ++ dcode ++ " registered").data = ("  " ++ pwd).data :=
    congrArg String.data h
  have hd2 : ' ' :: ' ' :: '-' :: ' ' :: (dcode.data ++ " registered".data) =
      ' ' :: ' ' :: pwd.data := hd
  injection hd2 with _ h2
  injection h2 with _ h3
  have hm : '-' ∈ pwd.data := by
    rw [← h3]
    exact List.mem_cons_self _ _
  have := hp '-' hm
  exact absurd this (by decide)

/-- The device loop performs no login call. -/
theorem deviceLoop_no_login (env : Env) (cid cname : String)
    (bid bname : Option String) (pfx : String) :
    ∀ fuel i tick devs, ∀ a ∈ (deviceLoop env cid cname bid bname pfx fuel i tick devs).2.1,
      ∀ e pw, ¬(a = Action.loginCall e pw) := by
  intro fuel
  induction fuel with
  | zero => intro i tick devs a ha; simp [deviceLoop] at ha
  | succ fuel ih =>
    intro i tick devs a ha
    simp only [deviceLoop] at ha
    split at ha
    · simp at ha
    · split at ha
      · simp at ha
        subst ha
        intro e pw
        simp
      · split at ha
        · simp at ha
          subst ha
          intro e pw
          simp
        · rcases List.mem_cons.mp ha with h | h
          · subst h; intro e pw; simp
          rcases List.mem_cons.mp h with h | h
          · subst h; intro e pw; simp
          · exact ih _ _ _ a h

/-- The company loop performs no login call. -/
theorem companyLoop_no_login (env : Env) (requested : List String) (count : Nat) :
    ∀ cs tick devs, ∀ a ∈ (companyLoop env requested count cs tick devs).2.1,
      ∀ e pw, ¬(a = Action.loginCall e pw) := by
  intro cs
  induction cs with
  | nil => intro tick devs a ha; simp [companyLoop] at ha
  | cons c rest ih =>
    intro tick devs a ha
    simp only [companyLoop] at ha
    split at ha
    · simp at ha
    · split at ha
      · exact ih _ _ a ha
      · split at ha
        · exact ih _ _ a ha
        · split at ha
          · simp at ha
            subst ha
            intro e pw
            simp
          · split at ha
            · rcases List.mem_append.mp ha with h | h
              · simp at h
                rcases h with h | h <;> subst h <;> intro e pw <;> simp
              · exact deviceLoop_no_login env _ _ _ _ _ count 1 _ devs a h
            · rcases List.mem_append.mp ha with h | h
              · rcases List.mem_append.mp h with h | h
                · simp at h
                  rcases h with h | h <;> subst h <;> intro e pw <;> simp
                · exact deviceLoop_no_login env _ _ _ _ _ count 1 _ devs a h
              · exact ih _ _ a h

/-- The only login call the provisioning phase can perform carries the
resolved admin email and admin password. -/
theorem provisionPhase_login (env : Env) (p : OnboardParams) (ctx : Ctx) (tick : Nat) :
    ∀ e pw, Action.loginCall e pw ∈ (provisionPhase env p ctx tick).2.1 →
      e = ctx.adminEmail ∧ pw = ctx.adminPassword := by
  intro e pw ha
  have hpre : Action.loginCall e pw ∈ [Action.log "Authenticating admin...",
      Action.loginCall ctx.adminEmail ctx.adminPassword] →
      e = ctx.adminEmail ∧ pw = ctx.adminPassword := by
    intro h
    simp at h
    exact h
  simp only [provisionPhase] at ha
  split at ha
  · simp at ha
  · split at ha
    · exact hpre ha
    · split at ha
      · exact hpre ha
      · split at ha
        · exact hpre ha
        · split at ha
          · rcases List.mem_append.mp ha with h | h
            · exact hpre h
            · simp at h
          · split at ha
            · rcases List.mem_append.mp ha with h | h
              · exact hpre h
              · simp at h
            · rcases List.mem_append.mp ha with h | h
              · exact hpre h
              · rcases List.mem_cons.mp h with h | h
                · simp at h
                · exact absurd rfl
                    (companyLoop_no_login env _ _ _ tick [] _ h e pw)

/-- When devices are not skipped, the provisioning phase always performs the
login call with the resolved credentials. -/
theorem provisionPhase_has_login (env : Env) (p : OnboardParams) (ctx : Ctx)
    (tick : Nat) (hskip : ctx.skipDevices = false) :
    Action.loginCall ctx.adminEmail ctx.adminPassword ∈
      (provisionPhase env p ctx tick).2.1 := by
  simp only [provisionPhase, hskip]
  rw [if_neg (by simp)]
  split
  · simp
  · split
    · simp
    · split
      · simp
      · split
        · simp
        · split
          · simp
          · simp

/-- Every login call of a run carries the resolved admin email and
password. -/
theorem run_login_password (env : Env) (p : OnboardParams) (ctx : Ctx)
    (hres : resolveCtx env p = .ok ctx) :
    ∀ e pw, Action.loginCall e pw ∈ (runOnboardingInternal env p).2 →
      e = ctx.adminEmail ∧ pw = ctx.adminPassword := by
  intro e pw ha
  rcases run_acts_cases env p _ ha with h | ⟨ctx2, hres2, h⟩
  · exact absurd (bundlePhase_acts env p _ h) (by simp)
  · rw [hres] at hres2
    rw [Except.ok.injEq] at hres2
    subst hres2
    rcases h with h | h | ⟨t1, h⟩ | ⟨t2, h⟩ | ⟨devs, h⟩ | ⟨t3, h⟩ | ⟨t4, h⟩
    · have h2 := (writePhase_acts env ctx _ h).2.1
      simp [Action.isProvisioning] at h2
    · have h2 := (stackPhase_acts env ctx 0 _ h).1
      simp [Action.isProvisioning] at h2
    · have h2 := (healthPhase_acts env p ctx t1 _ h).2.1
      simp [Action.isProvisioning] at h2
    · exact provisionPhase_login env p ctx t2 e pw h
    · have h2 := (artifactPhase_acts env ctx devs _ h).2.1
      simp [Action.isProvisioning] at h2
    · have h2 := (hardenPhase_acts env ctx t3 _ h).1
      simp [Action.isProvisioning] at h2
    · obtain ⟨l, hl⟩ := finishPhase_acts env ctx t4 _ h
      exact absurd hl (by simp)

/-- The config-write phase never logs the password echo line. -/
theorem writePhase_no_echo (env : Env) (ctx : Ctx) (pwd : String) :
    ∀ a ∈ (writePhase env ctx).2, ¬(a = Action.log ("  " ++ pwd)) := by
  intro a ha
  unfold writePhase at ha
  split at ha
  · split at ha
    · simp at ha
      subst ha
      simp
    · simp at ha
      rcases ha with ha | ha <;> subst ha
      · simp
      · exact log_ne_echo _ pwd 'W' rfl (by decide)
  · simp at ha
    subst ha
    exact log_ne_echo _ pwd 'R' rfl (by decide)

/-- A compose invocation whose streamed stdout avoids the echo line never
logs the password echo line. -/
theorem runCmdStream_no_echo (env : Env) (idx : Nat) (label : String) (tick : Nat)
    (pwd : String) (hout : ∀ l ∈ (env.composeRun idx).outLines, l ≠ "  " ++ pwd) :
    ∀ a ∈ (runCmdStream env idx label tick).2.1, ¬(a = Action.log ("  " ++ pwd)) := by
  intro a ha
  simp only [runCmdStream] at ha
  have hd : a = Action.spawn label ∨ a = Action.log ("$ " ++ label) ∨
      (∃ l ∈ (env.composeRun idx).outLines, Action.log l = a) ∨
      (∃ l ∈ (env.composeRun idx).errLines, Action.log ("[stderr] " ++ l) = a) := by
    split at ha
    · simpa using ha
    · split at ha <;> simpa using ha
  rcases hd with rfl | rfl | ⟨l, hl, rfl⟩ | ⟨l, hl, rfl⟩
  · simp
  · exact log_ne_echo _ pwd '$' rfl (by decide)
  · intro he
    injection he with h
    exact hout l hl h
  · exact log_ne_echo _ pwd '[' rfl (by decide)

/-- The stack bring-up never logs the password echo line. -/
theorem stackPhase_no_echo (env : Env) (ctx : Ctx) (tick : Nat) (pwd : String)
    (hout : ∀ l ∈ (env.composeRun 0).outLines, l ≠ "  " ++ pwd) :
    ∀ a ∈ (stackPhase env ctx tick).2.1, ¬(a = Action.log ("  " ++ pwd)) := by
  intro a ha
  have hrcs := runCmdStream_no_echo env 0 "docker compose up" tick pwd hout
  simp only [stackPhase] at ha
  split at ha
  · simp at ha
  · split at ha
    · simp at ha
      subst ha
      exact log_ne_echo _ pwd 'S' rfl (by decide)
    · rcases List.mem_cons.mp ha with h | h
      · subst h
        exact log_ne_echo _ pwd 'S' rfl (by decide)
      · exact hrcs a h

/-- The health wait loop never logs the password echo line. -/
theorem waitLoop_no_echo (env : Env) (url : String) (pwd : String) :
    ∀ fuel k tick lastErr, ∀ a ∈ (waitLoop env url fuel k tick lastErr).2.1,
      ¬(a = Action.log ("  " ++ pwd)) := by
  intro fuel
  induction fuel with
  | zero => intro k tick lastErr a ha; simp [waitLoop] at ha
  | succ fuel ih =>
    intro k tick lastErr a ha
    have ihw := ih (k + 1) (tick + 1) (healthErrText (env.health k))
    simp only [waitLoop] at ha
    split at ha
    · simp at ha
    · split at ha
      · simp at ha
        subst ha
        simp
      · rcases List.mem_cons.mp ha with h | h
        · subst h; simp
        rcases List.mem_cons.mp h with h | h
        · subst h
          exact log_ne_echo _ pwd 'W' rfl (by decide)
        · exact ihw a h

/-- The health phase never logs the password echo line. -/
theorem healthPhase_no_echo (env : Env) (p : OnboardParams) (ctx : Ctx)
    (tick : Nat) (pwd : String) :
    ∀ a ∈ (healthPhase env p ctx tick).2.1, ¬(a = Action.log ("  " ++ pwd)) := by
  intro a ha
  have hwl := waitLoop_no_echo env
    (trimEndSlashes (if (trimEndSlashes (trimS (p.api_base_url.getD ""))).data.isEmpty = true
      then "http://127.0.0.1:" ++ natStr ctx.apiPort
      else trimEndSlashes (trimS (p.api_base_url.getD ""))) ++ "/health")
    pwd healthFuel 0 tick ""
  simp only [healthPhase] at ha
  split at ha
  · rcases List.mem_cons.mp ha with h | h
    · subst h
      exact log_ne_echo _ pwd 'W' rfl (by decide)
    · exact hwl a h
  · rcases List.mem_cons.mp ha with h | h
    · subst h
      exact log_ne_echo _ pwd 'W' rfl (by decide)
    · rcases List.mem_append.mp h with h | h
      · exact hwl a h
      · simp at h
        subst h
        exact log_ne_echo _ pwd 'E' rfl (by decide)

/-- The device loop never logs the echo line of an alphanumeric password. -/
theorem deviceLoop_no_echo (env : Env) (cid cname : String)
    (bid bname : Option String) (pfx : String) (pwd : String)
    (hp : ∀ c ∈ pwd.data, c.isAlphanum = true) :
    ∀ fuel i tick devs, ∀ a ∈ (deviceLoop env cid cname bid bname pfx fuel i tick devs).2.1,
      ¬(a = Action.log ("  " ++ pwd)) := by
  intro fuel
  induction fuel with
  | zero => intro i tick devs a ha; simp [deviceLoop] at ha
  | succ fuel ih =>
    intro i tick devs a ha
    simp only [deviceLoop] at ha
    split at ha
    · simp at ha
    · split at ha
      · simp at ha
        subst ha
        simp
      · split at ha
        · simp at ha
          subst ha
          simp
        · rcases List.mem_cons.mp ha with h | h
          · subst h; simp
          rcases List.mem_cons.mp h with h | h
          · subst h
            exact deviceLoop_line_ne_echo _ pwd hp
          · exact ih _ _ _ a h

/-- The company loop never logs the echo line of an alphanumeric password. -/
theorem companyLoop_no_echo (env : Env) (requested : List String) (count : Nat)
    (pwd : String) (hp : ∀ c ∈ pwd.data, c.isAlphanum = true) :
    ∀ cs tick devs, ∀ a ∈ (companyLoop env requested count cs tick devs).2.1,
      ¬(a = Action.log ("  " ++ pwd)) := by
  intro cs
  induction cs with
  | nil => intro tick devs a ha; simp [companyLoop] at ha
  | cons c rest ih =>
    intro tick devs a ha
    simp only [companyLoop] at ha
    split at ha
    · simp at ha
    · split at ha
      · exact ih _ _ a ha
      · split at ha
        · exact ih _ _ a ha
        · split at ha
          · simp at ha
            subst ha
            simp
          · split at ha
            · rcases List.mem_append.mp ha with h | h
              · simp at h
                rcases h with h | h <;> subst h
                · simp
                · exact log_ne_echo _ pwd 'R' rfl (by decide)
              · exact deviceLoop_no_echo env _ _ _ _ _ pwd hp count 1 _ devs a h
            · rcases List.mem_append.mp ha with h | h
              · rcases List.mem_append.mp h with h | h
                · simp at h
                  rcases h with h | h <;> subst h
                  · simp
                  · exact log_ne_echo _ pwd 'R' rfl (by decide)
                · exact deviceLoop_no_echo env _ _ _ _ _ pwd hp count 1 _ devs a h
              · exact ih _ _ a h

/-- The provisioning phase never logs the echo line of an alphanumeric
password. -/
theorem provisionPhase_no_echo (env : Env) (p : OnboardParams) (ctx : Ctx)
    (tick : Nat) (pwd : String) (hp : ∀ c ∈ pwd.data, c.isAlphanum = true) :
    ∀ a ∈ (provisionPhase env p ctx tick).2.1, ¬(a = Action.log ("  " ++ pwd)) := by
  intro a ha
  have hpre : ∀ b ∈ [Action.log "Authenticating admin...",
      Action.loginCall ctx.adminEmail ctx.adminPassword],
      ¬(b = Action.log ("  " ++ pwd)) := by
    intro b hb
    simp at hb
    rcases hb with hb | hb <;> subst hb
    · exact log_ne_echo _ pwd 'A' rfl (by decide)
    · simp
  simp only [provisionPhase] at ha
  split at ha
  · simp at ha
    subst ha
    exact log_ne_echo _ pwd 'S' rfl (by decide)
  · split at ha
    · exact hpre a ha
    · split at ha
      · exact hpre a ha
      · split at ha
        · exact hpre a ha
        · split at ha
          · rcases List.mem_append.mp ha with h | h
            · exact hpre a h
            · simp at h
              subst h
              simp
          · split at ha
            · rcases List.mem_append.mp ha with h | h
              · exact hpre a h
              · simp at h
                subst h
                simp
            · rcases List.mem_append.mp ha with h | h
              · exact hpre a h
              · rcases List.mem_cons.mp h with h | h
                · subst h; simp
                · exact companyLoop_no_echo env _ _ pwd hp _ tick [] a h

/-- The artifact phase never logs the password echo line. -/
theorem artifactPhase_no_echo (env : Env) (ctx : Ctx) (devices : List DeviceRec)
    (pwd : String) :
    ∀ a ∈ (artifactPhase env ctx devices).2, ¬(a = Action.log ("  " ++ pwd)) := by
  intro a ha
  have hfs : ∀ pth, ¬(Action.fsWrite pth = Action.log ("  " ++ pwd)) := by
    intro pth
    simp
  simp only [artifactPhase] at ha
  split at ha
  · simp at ha
  · split at ha
    · simp at ha
      subst ha
      exact hfs _
    · split at ha
      · rename_i e acts x heq
        rcases List.mem_cons.mp ha with h | h
        · subst h; exact hfs _
        · obtain ⟨pth, rfl⟩ := packLoop_acts env _ devices 1 a (by rw [heq]; exact h)
          exact hfs _
      · rename_i u acts fsIdx heq
        split at ha
        · rcases List.mem_cons.mp ha with h | h
          · subst h; exact hfs _
          rcases List.mem_append.mp h with h | h
          · obtain ⟨pth, rfl⟩ := packLoop_acts env _ devices 1 a (by rw [heq]; exact h)
            exact hfs _
          · simp at h
            subst h
            exact hfs _
        · split at ha
          · rcases List.mem_cons.mp ha with h | h
            · subst h; exact hfs _
            rcases List.mem_append.mp h with h | h
            · obtain ⟨pth, rfl⟩ := packLoop_acts env _ devices 1 a (by rw [heq]; exact h)
              exact hfs _
            · simp at h
              rcases h with h | h <;> subst h <;> exact hfs _
          · split at ha
            · rcases List.mem_cons.mp ha with h | h
              · subst h; exact hfs _
              rcases List.mem_append.mp h with h | h
              · obtain ⟨pth, rfl⟩ := packLoop_acts env _ devices 1 a (by rw [heq]; exact h)
                exact hfs _
              · simp at h
                rcases h with h | h | h <;> subst h <;> exact hfs _
            · rcases List.mem_cons.mp ha with h | h
              · subst h; exact hfs _
              rcases List.mem_append.mp h with h | h
              · obtain ⟨pth, rfl⟩ := packLoop_acts env _ devices 1 a (by rw [heq]; exact h)
                exact hfs _
              · simp at h
                rcases h with h | h | h | h <;> subst h
                · exact hfs _
                · exact hfs _
                · exact hfs _
                · exact log_ne_echo _ pwd 'E' rfl (by decide)

/-- The hardening phase never logs the password echo line when the refresh
compose output avoids it. -/
theorem hardenPhase_no_echo (env : Env) (ctx : Ctx) (tick : Nat) (pwd : String)
    (hout : ∀ l ∈ (env.composeRun 1).outLines, l ≠ "  " ++ pwd) :
    ∀ a ∈ (hardenPhase env ctx tick).2.1, ¬(a = Action.log ("  " ++ pwd)) := by
  intro a ha
  simp only [hardenPhase] at ha
  split at ha
  · split at ha
    · simp at ha
      subst ha
      simp
    · split at ha
      · have hrcs := runCmdStream_no_echo env 1 "docker compose up (refresh)" tick pwd hout
        rcases List.mem_append.mp ha with h | h
        · simp at h
          rcases h with h | h <;> subst h
          · simp
          · exact log_ne_echo _ pwd 'U' rfl (by decide)
        · rcases List.mem_cons.mp h with h | h
          · subst h
            exact log_ne_echo _ pwd 'A' rfl (by decide)
          · exact hrcs a h
      · simp at ha
        rcases ha with ha | ha <;> subst ha
        · simp
        · exact log_ne_echo _ pwd 'U' rfl (by decide)
  · simp at ha

/-- The finish phase of a run with a generated password logs the echo line
exactly once. -/
theorem finishPhase_echo_count (env : Env) (ctx : Ctx) (tick : Nat)
    (hgen : ctx.generatedPwd = true) :
    (finishPhase env ctx tick).2.1.countP
      (fun a => a = Action.log ("  " ++ ctx.adminPassword)) = 1 := by
  have hacts : (finishPhase env ctx tick).2.1 =
      [Action.log "", Action.log "Onboarding complete.",
        Action.log ("- Edge API URL for POS: " ++ ctx.edgeUrl)] ++
      (if ctx.syncEnabled then [Action.log ("- Edge->Cloud sync target: " ++ ctx.cloudUrl)]
        else [Action.log "- Edge->Cloud sync: disabled"]) ++
      [Action.log "- Bootstrap admin password was auto-generated for this run:",
        Action.log ("  " ++ ctx.adminPassword)] := by
    simp only [finishPhase, hgen]
    split <;> rfl
  rw [hacts, List.countP_append, List.countP_append]
  have c1 : ([Action.log "", Action.log "Onboarding complete.",
      Action.log ("- Edge API URL for POS: " ++ ctx.edgeUrl)] : List Action).countP
      (fun a => a = Action.log ("  " ++ ctx.adminPassword)) = 0 := by
    rw [List.countP_eq_zero]
    intro a ha
    simp only [List.mem_cons, List.not_mem_nil, or_false] at ha
    rcases ha with rfl | rfl | rfl
    · simpa using log_nil_ne_echo ctx.adminPassword
    · simpa using log_ne_echo "Onboarding complete." ctx.adminPassword 'O' rfl (by decide)
    · simpa using log_ne_echo ("- Edge API URL for POS: " ++ ctx.edgeUrl)
        ctx.adminPassword '-' rfl (by decide)
  have c2 : (if ctx.syncEnabled then
        [Action.log ("- Edge->Cloud sync target: " ++ ctx.cloudUrl)]
      else [Action.log "- Edge->Cloud sync: disabled"]).countP
      (fun a => a = Action.log ("  " ++ ctx.adminPassword)) = 0 := by
    rw [List.countP_eq_zero]
    intro a ha
    split at ha <;> simp only [List.mem_singleton] at ha <;> subst ha
    · simpa using log_ne_echo ("- Edge->Cloud sync target: " ++ ctx.cloudUrl)
        ctx.adminPassword '-' rfl (by decide)
    · simpa using log_ne_echo "- Edge->Cloud sync: disabled"
        ctx.adminPassword '-' rfl (by decide)
  have c3 : ([Action.log "- Bootstrap admin password was auto-generated for this run:",
      Action.log ("  " ++ ctx.adminPassword)] : List Action).countP
      (fun a => a = Action.log ("  " ++ ctx.adminPassword)) = 1 := by
    rw [List.countP_cons_of_neg, List.countP_cons_of_pos]
    · rfl
    · simp
    · simpa using log_ne_echo
        "- Bootstrap admin password was auto-generated for this run:"
        ctx.adminPassword '-' rfl (by decide)
  rw [c1, c2, c3]

/-- A successful run went through every phase successfully, and its trace is
the concatenation of the phase traces. -/
theorem run_success_decomp (env : Env) (p : OnboardParams) (ctx : Ctx)
    (hres : resolveCtx env p = .ok ctx)
    (hok : (runOnboardingInternal env p).1 = .ok ()) :
    ∃ bacts wacts sacts hacts pacts aacts dacts t1 t2 t3 t4 devs,
      bundlePhase env p = (.ok (), bacts) ∧
      writePhase env ctx = (.ok (), wacts) ∧
      stackPhase env ctx 0 = (.ok (), sacts, t1) ∧
      healthPhase env p ctx t1 = (.ok (), hacts, t2) ∧
      provisionPhase env p ctx t2 = (.ok (), pacts, t3, devs) ∧
      artifactPhase env ctx devs = (.ok (), aacts) ∧
      hardenPhase env ctx t3 = (.ok (), dacts, t4) ∧
      (runOnboardingInternal env p).2 =
        bacts ++ wacts ++ sacts ++ hacts ++ pacts ++ aacts ++ dacts ++
          (finishPhase env ctx t4).2.1 := by
  rcases hbp : bundlePhase env p with ⟨rb, bacts⟩
  cases rb with
  | error e =>
    simp only [runOnboardingInternal, hbp] at hok
    simp at hok
  | ok u =>
    rcases hwp : writePhase env ctx with ⟨rw1, wacts⟩
    cases rw1 with
    | error e =>
      simp only [runOnboardingInternal, hbp, hres, hwp] at hok
      simp at hok
    | ok u1 =>
      rcases hsp : stackPhase env ctx 0 with ⟨rs, sacts, t1⟩
      cases rs with
      | error e =>
        simp only [runOnboardingInternal, hbp, hres, hwp, hsp] at hok
        simp at hok
      | ok u2 =>
        rcases hhp : healthPhase env p ctx t1 with ⟨rh, hacts, t2⟩
        cases rh with
        | error e =>
          simp only [runOnboardingInternal, hbp, hres, hwp, hsp, hhp] at hok
          simp at hok
        | ok u3 =>
          rcases hpp : provisionPhase env p ctx t2 with ⟨rp, pacts, t3, devs⟩
          cases rp with
          | error e =>
            simp only [runOnboardingInternal, hbp, hres, hwp, hsp, hhp, hpp] at hok
            simp at hok
          | ok u4 =>
            rcases hart : artifactPhase env ctx devs with ⟨ra, aacts⟩
            cases ra with
            | error e =>
              simp only [runOnboardingInternal, hbp, hres, hwp, hsp, hhp, hpp, hart] at hok
              simp at hok
            | ok u5 =>
              rcases hh2 : hardenPhase env ctx t3 with ⟨rd, dacts, t4⟩
              cases rd with
              | error e =>
                simp only [runOnboardingInternal, hbp, hres, hwp, hsp, hhp, hpp,
                  hart, hh2] at hok
                simp at hok
              | ok u6 =>
                cases u
                cases u1
                cases u2
                cases u3
                cases u4
                cases u5
                cases u6
                refine ⟨bacts, wacts, sacts, hacts, pacts, aacts, dacts,
                  t1, t2, t3, t4, devs, rfl, rfl, rfl, hhp, hpp, hart, hh2, ?_⟩
                simp only [runOnboardingInternal, hbp, hres, hwp, hsp, hhp, hpp,
                  hart, hh2]

/-- A fresh run with no supplied admin password resolves to a generated
20-character random password. -/
theorem resolveCtx_password (env : Env) (p : OnboardParams) (ctx : Ctx)
    (hres : resolveCtx env p = .ok ctx)
    (hfresh : env.fileLines = none)
    (hnopw : p.admin_password = none) :
    ctx.generatedPwd = true ∧ ctx.adminPassword = randSecret env.rng 0 20 := by
  simp only [resolveCtx] at hres
  split at hres
  · cases hres
  · split at hres
    · cases hres
    · rw [Except.ok.injEq] at hres
      subst hres
      have h0 : ((p.admin_password.filter (fun s => !(trimS s).data.isEmpty)).orElse
          (fun _ => readEnvFile env.fileLines "BOOTSTRAP_ADMIN_PASSWORD")).getD "" = "" := by
        rw [hnopw, hfresh]
        rfl
      refine ⟨?_, ?_⟩
      · simp only [h0]
        rfl
      · simp only [h0]
        rw [if_pos (by decide)]

/-! ### Claim C3 -/

/-- C3: for each secret key (`POSTGRES_PASSWORD`, `APP_DB_PASSWORD`,
`MINIO_ROOT_PASSWORD`), whenever the persisted config already holds a value
that is non-empty after trimming, the resolved `env_values` map keeps that
exact value and re-reading the written file returns it unchanged; and
whenever no existing non-empty value is found, the entry is a fresh
24-character random alphanumeric (hence non-empty) secret drawn from the
entropy stream, which the write/re-read round trip also returns unchanged. -/
theorem C3_secret_roundtrip (env : Env) (p : OnboardParams) (ctx : Ctx)
    (hres : resolveCtx env p = .ok ctx) (K : String)
    (hK : K = "POSTGRES_PASSWORD" ∨ K = "APP_DB_PASSWORD" ∨ K = "MINIO_ROOT_PASSWORD") :
    (∀ v, readEnvFile env.fileLines K = some v → (trimS v).data ≠ [] →
      ctx.envValues K = some v ∧
      readEnvLines (writeEnvLines ctx.envValues) K = some v) ∧
    ((readEnvFile env.fileLines K).filter (fun s => !(trimS s).data.isEmpty) = none →
      ∃ off, ctx.envValues K = some (randSecret env.rng off 24) ∧
        readEnvLines (writeEnvLines ctx.envValues) K = some (randSecret env.rng off 24) ∧
        (randSecret env.rng off 24).data.length = 24 ∧
        (∀ c ∈ (randSecret env.rng off 24).data, c.isAlphanum = true) ∧
        randSecret env.rng off 24 ≠ "") := by
  obtain ⟨r1, r2, r3, h1, h2, h3⟩ := resolveCtx_secrets env p ctx hres
  have hgen : ∀ r : Nat,
      (randSecret env.rng r 24).data.length = 24 ∧
      (∀ c ∈ (randSecret env.rng r 24).data, c.isAlphanum = true) ∧
      randSecret env.rng r 24 ≠ "" := by
    intro r
    refine ⟨randSecret_length env.rng r 24, randSecret_all_alnum env.rng r 24, ?_⟩
    intro he
    have hl := randSecret_length env.rng r 24
    rw [he] at hl
    simp at hl
  rcases hK with rfl | rfl | rfl
  · constructor
    · intro v hfind hne
      have hstable := readEnvFile_val_stable env.fileLines _ v hfind
      have hb : (trimS v).data.isEmpty = false := by
        cases he : (trimS v).data.isEmpty
        · rfl
        · exact absurd (List.isEmpty_iff.mp he) hne
      have hfilter : (readEnvFile env.fileLines "POSTGRES_PASSWORD").filter
          (fun s => !(trimS s).data.isEmpty) = some v := by
        rw [hfind]
        simp [Option.filter, hb]
      have hval : ctx.envValues "POSTGRES_PASSWORD" = some v := by
        rw [h1, hfilter]
        rfl
      exact ⟨hval, reread_writeEnv_pg ctx.envValues v hval hstable.1 hstable.2⟩
    · intro hfilter
      have hval : ctx.envValues "POSTGRES_PASSWORD" = some (randSecret env.rng r1 24) := by
        rw [h1, hfilter]
        rfl
      have hst := stable_of_alnum _ (hgen r1).2.1
      exact ⟨r1, hval, reread_writeEnv_pg _ _ hval hst.1 hst.2,
        (hgen r1).1, (hgen r1).2.1, (hgen r1).2.2⟩
  · constructor
    · intro v hfind hne
      have hstable := readEnvFile_val_stable env.fileLines _ v hfind
      have hb : (trimS v).data.isEmpty = false := by
        cases he : (trimS v).data.isEmpty
        · rfl
        · exact absurd (List.isEmpty_iff.mp he) hne
      have hfilter : (readEnvFile env.fileLines "APP_DB_PASSWORD").filter
          (fun s => !(trimS s).data.isEmpty) = some v := by
        rw [hfind]
        simp [Option.filter, hb]
      have hval : ctx.envValues "APP_DB_PASSWORD" = some v := by
        rw [h2, hfilter]
        rfl
      exact ⟨hval, reread_writeEnv_app ctx.envValues v hval hstable.1 hstable.2⟩
    · intro hfilter
      have hval : ctx.envValues "APP_DB_PASSWORD" = some (randSecret env.rng r2 24) := by
        rw [h2, hfilter]
        rfl
      have hst := stable_of_alnum _ (hgen r2).2.1
      exact ⟨r2, hval, reread_writeEnv_app _ _ hval hst.1 hst.2,
        (hgen r2).1, (hgen r2).2.1, (hgen r2).2.2⟩
  · constructor
    · intro v hfind hne
      have hstable := readEnvFile_val_stable env.fileLines _ v hfind
      have hb : (trimS v).data.isEmpty = false := by
        cases he : (trimS v).data.isEmpty
        · rfl
        · exact absurd (List.isEmpty_iff.mp he) hne
      have hfilter : (readEnvFile env.fileLines "MINIO_ROOT_PASSWORD").filter
          (fun s => !(trimS s).data.isEmpty) = some v := by
        rw [hfind]
        simp [Option.filter, hb]
      have hval : ctx.envValues "MINIO_ROOT_PASSWORD" = some v := by
        rw [h3, hfilter]
        rfl
      exact ⟨hval, reread_writeEnv_minio ctx.envValues v hval hstable.1 hstable.2⟩
    · intro hfilter
      have hval : ctx.envValues "MINIO_ROOT_PASSWORD" = some (randSecret env.rng r3 24) := by
        rw [h3, hfilter]
        rfl
      have hst := stable_of_alnum _ (hgen r3).2.1
      exact ⟨r3, hval, reread_writeEnv_minio _ _ hval hst.1 hst.2,
        (hgen r3).1, (hgen r3).2.1, (hgen r3).2.2⟩

/-- C3 witness: a config holding `POSTGRES_PASSWORD=keepme` keeps that value
through resolution and the write/re-read round trip, while the absent
app-role password is generated as a fresh 24-character secret that also
survives the round trip. -/
theorem C3_secret_roundtrip_witness :
    (ctxPrev.envValues "POSTGRES_PASSWORD" = some "keepme" ∧
     readEnvLines (writeEnvLines ctxPrev.envValues) "POSTGRES_PASSWORD" = some "keepme") ∧
    (∃ off, ctxPrev.envValues "APP_DB_PASSWORD" = some (randSecret envPrev.rng off 24) ∧
      readEnvLines (writeEnvLines ctxPrev.envValues) "APP_DB_PASSWORD" =
        some (randSecret envPrev.rng off 24) ∧
      (randSecret envPrev.rng off 24).data.length = 24 ∧
      (∀ c ∈ (randSecret envPrev.rng off 24).data, c.isAlphanum = true) ∧
      randSecret envPrev.rng off 24 ≠ "") :=
  ⟨(C3_secret_roundtrip envPrev pHybrid ctxPrev rfl "POSTGRES_PASSWORD"
      (Or.inl rfl)).1 "keepme" rfl (by decide),
   (C3_secret_roundtrip envPrev pHybrid ctxPrev rfl "APP_DB_PASSWORD"
      (Or.inr (Or.inl rfl))).2 rfl⟩

/-! ### Claim C8 -/

/-- C8: for every fresh run (no persisted config) with no admin password in
the request, the resolved admin password is the 20-character random
alphanumeric secret drawn from the entropy stream; every login call of the
run authenticates with exactly this password; when devices are not skipped,
a successful run does perform that login call; and a successful run whose
compose invocations do not themselves print the echo line echoes the
password in the log exactly once. -/
theorem C8_admin_password (env : Env) (p : OnboardParams) (ctx : Ctx)
    (hres : resolveCtx env p = .ok ctx)
    (hfresh : env.fileLines = none)
    (hnopw : p.admin_password = none) :
    ctx.generatedPwd = true ∧
    ctx.adminPassword = randSecret env.rng 0 20 ∧
    ctx.adminPassword.data.length = 20 ∧
    (∀ c ∈ ctx.adminPassword.data, c.isAlphanum = true) ∧
    (∀ e pw, Action.loginCall e pw ∈ (runOnboardingInternal env p).2 →
      pw = ctx.adminPassword) ∧
    ((runOnboardingInternal env p).1 = .ok () → ctx.skipDevices = false →
      Action.loginCall ctx.adminEmail ctx.adminPassword ∈ (runOnboardingInternal env p).2) ∧
    ((runOnboardingInternal env p).1 = .ok () →
      (∀ i, ∀ l ∈ (env.composeRun i).outLines, l ≠ "  " ++ ctx.adminPassword) →
      (runOnboardingInternal env p).2.countP
        (fun a => a = Action.log ("  " ++ ctx.adminPassword)) = 1) := by
  obtain ⟨hgen, hpw⟩ := resolveCtx_password env p ctx hres hfresh hnopw
  have halnum : ∀ c ∈ ctx.adminPassword.data, c.isAlphanum = true := by
    rw [hpw]
    exact randSecret_all_alnum env.rng 0 20
  refine ⟨hgen, hpw, ?_, halnum, ?_, ?_, ?_⟩
  · rw [hpw]
    exact randSecret_length env.rng 0 20
  · intro e pw h
    exact (run_login_password env p ctx hres e pw h).2
  · intro hok hskip
    obtain ⟨bacts, wacts, sacts, hacts, pacts, aacts, dacts, t1, t2, t3, t4, devs,
      hbp, hwp, hsp, hhp, hpp, hart, hh2, htrace⟩ := run_success_decomp env p ctx hres hok
    have hl : Action.loginCall ctx.adminEmail ctx.adminPassword ∈ pacts := by
      have h0 := provisionPhase_has_login env p ctx t2 hskip
      rw [hpp] at h0
      exact h0
    rw [htrace]
    simp only [List.mem_append]
    exact Or.inl (Or.inl (Or.inl (Or.inr hl)))
  · intro hok hout
    obtain ⟨bacts, wacts, sacts, hacts, pacts, aacts, dacts, t1, t2, t3, t4, devs,
      hbp, hwp, hsp, hhp, hpp, hart, hh2, htrace⟩ := run_success_decomp env p ctx hres hok
    rw [htrace]
    rw [List.countP_append, List.countP_append, List.countP_append, List.countP_append,
      List.countP_append, List.countP_append, List.countP_append]
    have hb0 : bacts.countP (fun a => a = Action.log ("  " ++ ctx.adminPassword)) = 0 := by
      rw [List.countP_eq_zero]
      intro a ha
      have h0 := bundlePhase_acts env p a (by rw [hbp]; exact ha)
      subst h0
      simp
    have hw0 : wacts.countP (fun a => a = Action.log ("  " ++ ctx.adminPassword)) = 0 := by
      rw [List.countP_eq_zero]
      intro a ha
      simpa using writePhase_no_echo env ctx ctx.adminPassword a (by rw [hwp]; exact ha)
    have hs0 : sacts.countP (fun a => a = Action.log ("  " ++ ctx.adminPassword)) = 0 := by
      rw [List.countP_eq_zero]
      intro a ha
      simpa using stackPhase_no_echo env ctx 0 ctx.adminPassword (hout 0) a
        (by rw [hsp]; exact ha)
    have hh0 : hacts.countP (fun a => a = Action.log ("  " ++ ctx.adminPassword)) = 0 := by
      rw [List.countP_eq_zero]
      intro a ha
      simpa using healthPhase_no_echo env p ctx t1 ctx.adminPassword a
        (by rw [hhp]; exact ha)
    have hp0 : pacts.countP (fun a => a = Action.log ("  " ++ ctx.adminPassword)) = 0 := by
      rw [List.countP_eq_zero]
      intro a ha
      simpa using provisionPhase_no_echo env p ctx t2 ctx.adminPassword halnum a
        (by rw [hpp]; exact ha)
    have ha0 : aacts.countP (fun a => a = Action.log ("  " ++ ctx.adminPassword)) = 0 := by
      rw [List.countP_eq_zero]
      intro a ha
      simpa using artifactPhase_no_echo env ctx devs ctx.adminPassword a
        (by rw [hart]; exact ha)
    have hd0 : dacts.countP (fun a => a = Action.log ("  " ++ ctx.adminPassword)) = 0 := by
      rw [List.countP_eq_zero]
      intro a ha
      simpa using hardenPhase_no_echo env ctx t3 ctx.adminPassword (hout 1) a
        (by rw [hh2]; exact ha)
    have hf1 := finishPhase_echo_count env ctx t4 hgen
    rw [hb0, hw0, hs0, hh0, hp0, ha0, hd0, hf1]

/-- C8 witness: the all-success oracle with no prior config and no password
in the request: the resolved password is the 20 generated characters, the
login call of the successful run carries it, and the echo line appears
exactly once in the trace. -/
theorem C8_admin_password_witness :
    ctxOk.generatedPwd = true ∧
    ctxOk.adminPassword = randSecret envOk.rng 0 20 ∧
    ctxOk.adminPassword.data.length = 20 ∧
    (∀ e pw, Action.loginCall e pw ∈ (runOnboardingInternal envOk pHybrid).2 →
      pw = ctxOk.adminPassword) ∧
    Action.loginCall ctxOk.adminEmail ctxOk.adminPassword ∈
      (runOnboardingInternal envOk pHybrid).2 ∧
    (runOnboardingInternal envOk pHybrid).2.countP
      (fun a => a = Action.log ("  " ++ ctxOk.adminPassword)) = 1 := by
  have h := C8_admin_password envOk pHybrid ctxOk rfl rfl rfl
  have hout : ∀ i, ∀ l ∈ ((envOk.composeRun i)).outLines,
      l ≠ "  " ++ ctxOk.adminPassword := by
    intro i l hl
    simp [envOk] at hl
  exact ⟨h.1, h.2.1, h.2.2.1, h.2.2.2.2.1, h.2.2.2.2.2.1 rfl rfl,
    h.2.2.2.2.2.2 rfl hout⟩

end ERP
